import Mathlib

/-!
# Open Graph meta-tag renderer (`ogp.go`)

A shallow embedding of the Go package `ogp` and a verification of the properties its
specification states about `OpenGraph.HTML`.

Modelling conventions.

* A Go `string` is a finite sequence of bytes.  It is embedded as `List Nat`, every byte
  being given by its numeric value (`<` is `60`, `>` is `62`, `"` is `34`, `'` is `39`,
  `&` is `38`, NUL is `0`, the newline is `10`).  The named string types of the source
  (`URL`, `SecureURL`, `Determiner`, `Locale`) share that representation, so the
  conversions `string(x)` of the source are the identity.
* A `strings.Builder` is the byte sequence written so far; `WriteString` and `WriteByte`
  append to it.
* A Go slice that is compared with `nil` (`OpenGraph.Images`) is an `Option (List _)`:
  `none` is the nil slice, `some []` the allocated slice of length zero.  A slice that is
  only ranged over (`OpenGraph.LocaleAlternate`) is a `List`.
* A Go `int` is an `Int`; the program only compares `Width` and `Height` with zero and
  prints them, so no overflow can happen.
-/

set_option maxRecDepth 100000

namespace ogp

/-! ## Strings -/

/-- A Go string: its bytes, each one as a number. -/
abbrev GoString := List Nat

/-- The bytes of an ASCII string literal of the source. -/
def lit (s : String) : GoString := s.toList.map Char.toNat

/-- Go's `strings.HasPrefix(s, prefix)`, which is
`len(s) >= len(prefix) && s[:len(prefix)] == prefix`. -/
def HasPrefix (s pre : GoString) : Bool :=
  decide (pre.length ≤ s.length) && (s.take pre.length == pre)

/-! ## The standard-library helpers used by `HTML` -/

/-- Modelled from the spec: the HTML escaper `template.HTMLEscaper` belongs to Go's standard
library (`text/template`), its code is not in this repository.  This is the `switch` of
its byte loop: the replacement written for byte `c`, or `none` when the byte is kept.  The
five characters the specification names get their entities (`&#34;` `&#39;` `&amp;` `&lt;`
`&gt;`); the library also replaces the NUL byte by U+FFFD (bytes `EF BF BD`). -/
def htmlReplacement (c : Nat) : Option GoString :=
  if c = 0 then some [239, 191, 189]
  else if c = 34 then some (lit "&#34;")
  else if c = 39 then some (lit "&#39;")
  else if c = 38 then some (lit "&amp;")
  else if c = 60 then some (lit "&lt;")
  else if c = 62 then some (lit "&gt;")
  else none

/-- Modelled from the spec: the byte loop of the standard library's `HTMLEscape(w, b)`, not
in this repository.  `w` is what has been written, `pending` is the segment `b[last:i]` of
kept bytes not yet written, the third argument is `b[i:]`. -/
def HTMLEscapeLoop (w pending : GoString) : GoString → GoString
  | [] => w ++ pending
  | c :: rest =>
    match htmlReplacement c with
    | none => HTMLEscapeLoop w (pending ++ [c]) rest
    | some html => HTMLEscapeLoop (w ++ pending ++ html) [] rest

/-- Go's `strings.ContainsAny(s, chars)` for ASCII `chars`. -/
def ContainsAny (s chars : GoString) : Bool := s.any (fun c => chars.contains c)

/-- Modelled from the spec: the standard library's `HTMLEscapeString`, not in this
repository: a string with none of `'` `"` `&` `<` `>` NUL is returned as it is, any other
goes through `HTMLEscape`. -/
def HTMLEscapeString (s : GoString) : GoString :=
  if !ContainsAny s (lit "'\"&<>" ++ [0]) then s else HTMLEscapeLoop [] [] s

/-- Modelled from the spec: `template.HTMLEscaper(s)` of the standard library, called with
one argument that is a string: the argument itself is escaped. -/
def HTMLEscaper (s : GoString) : GoString := HTMLEscapeString s

/-- Modelled from the spec: the digit loop behind `strconv.Itoa` (standard library, not in
this repository), which writes the decimal digits of `n` in front of `acc`, last digit
first.  The first argument bounds the number of digits. -/
def decimalDigits : Nat → Nat → GoString → GoString
  | 0, _, acc => acc
  | fuel + 1, n, acc =>
    if n < 10 then (48 + n) :: acc
    else decimalDigits fuel (n / 10) ((48 + n % 10) :: acc)

/-- Modelled from the spec: `strconv.Itoa` (standard library, not in this repository): the
decimal string of an `int`, with a leading `-` for a negative one. -/
def Itoa (i : Int) : GoString :=
  if i < 0 then 45 :: decimalDigits (i.natAbs + 1) i.natAbs []
  else decimalDigits (i.toNat + 1) i.toNat []

/-! ## The data model of `ogp.go` -/

/-- Source: `type URL string`. -/
abbrev URL := GoString

/-- Source: `type SecureURL URL`. -/
abbrev SecureURL := GoString

/-- Source: `type Determiner string`. -/
abbrev Determiner := GoString

/-- Source: `type Locale string`. -/
abbrev Locale := GoString

/-- Source: `func (u URL) IsValid() bool`. -/
def URL.IsValid (u : URL) : Bool :=
  HasPrefix u (lit "http://") || HasPrefix u (lit "https://")

/-- Source: `func (s SecureURL) IsValid() bool`. -/
def SecureURL.IsValid (s : SecureURL) : Bool :=
  HasPrefix s (lit "https://")

/-- Source: `type Image struct`.  The field `Type` of the source is `Type_` here. -/
structure Image where
  URL : ogp.URL := []
  SecureURL : ogp.SecureURL := []
  Type_ : GoString := []
  Width : Int := 0
  Height : Int := 0
  Alt : GoString := []
  deriving DecidableEq, Repr

/-- Source: `type OpenGraph struct`.  The field `Type` of the source is `Type_` here; the defaults
are Go's zero values. -/
structure OpenGraph where
  Title : GoString := []
  Type_ : GoString := []
  Image : ogp.URL := []
  Images : Option (List ogp.Image) := none
  URL : ogp.URL := []
  Audio : ogp.URL := []
  Description : GoString := []
  Determiner : ogp.Determiner := []
  Locale : ogp.Locale := []
  LocaleAlternate : List ogp.Locale := []
  SiteName : GoString := []
  Video : ogp.URL := []
  deriving DecidableEq, Repr

/-! ## `OpenGraph.HTML` -/

/-- The closure `meta` of `HTML`, the builder `b` it captures being passed and returned. -/
def meta (b : GoString) (property content : GoString) : GoString :=
  let b := b ++ lit "<meta property=\""
  let b := b ++ HTMLEscaper property
  let b := b ++ lit "\" content=\""
  let b := b ++ HTMLEscaper content
  let b := b ++ lit "\" />"
  b ++ [10]

/-- One iteration of `for _, g := range o.Images` (lines 51 to 72). -/
def imagesBody (b : GoString) (g : Image) : GoString :=
  if !URL.IsValid g.URL then b
  else
    let b := if g.URL ≠ [] then meta b (lit "og:image") g.URL else b
    let b := if g.SecureURL ≠ [] then meta b (lit "og:image:secure_url") g.SecureURL else b
    let b := if g.Type_ ≠ [] then meta b (lit "og:image:type") g.Type_ else b
    let b := if g.Width > 0 then meta b (lit "og:image:width") (Itoa g.Width) else b
    let b := if g.Height > 0 then meta b (lit "og:image:height") (Itoa g.Height) else b
    let b := if g.Alt ≠ [] then meta b (lit "og:image:alt") g.Alt else b
    b

/-- Source: `func (o OpenGraph) HTML() template.HTML`. -/
def HTML (o : OpenGraph) : GoString :=
  let b : GoString := []
  let b := if o.Title ≠ [] then meta b (lit "og:title") o.Title else b
  let b := if o.Type_ ≠ [] then meta b (lit "og:type") o.Type_ else b
  let b := if o.Images = none ∧ URL.IsValid o.Image = true then
    meta b (lit "og:type") o.Image else b
  let b := (o.Images.getD []).foldl imagesBody b
  let b := if URL.IsValid o.URL then meta b (lit "og:url") o.URL else b
  let b := if o.Audio ≠ [] then meta b (lit "og:audio") o.Audio else b
  let b := if o.Description ≠ [] then meta b (lit "og:description") o.Description else b
  let b := if o.Determiner ≠ [] then meta b (lit "og:determiner") o.Determiner else b
  let b := if o.Locale ≠ [] then meta b (lit "og:locale") o.Locale else b
  let b := o.LocaleAlternate.foldl (fun b loc => meta b (lit "og:locale:alternate") loc) b
  let b := if o.SiteName ≠ [] then meta b (lit "og:site_name") o.SiteName else b
  let b := if URL.IsValid o.Video then meta b (lit "og:video") o.Video else b
  b

/-- Lines 41 to 46 of `HTML` run on an empty builder: the `og:title` and `og:type` steps. -/
def titleTypeBlock (o : OpenGraph) : GoString :=
  let b : GoString := []
  let b := if o.Title ≠ [] then meta b (lit "og:title") o.Title else b
  let b := if o.Type_ ≠ [] then meta b (lit "og:type") o.Type_ else b
  b

/-- Lines 47 to 73 of `HTML` run on an empty builder: what `Image` and `Images` emit. -/
def imageBlock (o : OpenGraph) : GoString :=
  let b : GoString := []
  let b := if o.Images = none ∧ URL.IsValid o.Image = true then
    meta b (lit "og:type") o.Image else b
  let b := (o.Images.getD []).foldl imagesBody b
  b

/-- Lines 74 to 98 of `HTML` run on an empty builder: the steps from `og:url` to
`og:video`. -/
def trailingBlock (o : OpenGraph) : GoString :=
  let b : GoString := []
  let b := if URL.IsValid o.URL then meta b (lit "og:url") o.URL else b
  let b := if o.Audio ≠ [] then meta b (lit "og:audio") o.Audio else b
  let b := if o.Description ≠ [] then meta b (lit "og:description") o.Description else b
  let b := if o.Determiner ≠ [] then meta b (lit "og:determiner") o.Determiner else b
  let b := if o.Locale ≠ [] then meta b (lit "og:locale") o.Locale else b
  let b := o.LocaleAlternate.foldl (fun b loc => meta b (lit "og:locale:alternate") loc) b
  let b := if o.SiteName ≠ [] then meta b (lit "og:site_name") o.SiteName else b
  let b := if URL.IsValid o.Video then meta b (lit "og:video") o.Video else b
  b

/-! ## Specification-side definitions -/

/-- The tag shape of the specification: the literal `<meta property="`, the escaped property,
the literal `" content="`, the escaped content, the literal `" />`, and a newline. -/
def tag (p c : GoString) : GoString :=
  lit "<meta property=\"" ++ HTMLEscaper p ++ lit "\" content=\"" ++ HTMLEscaper c
    ++ lit "\" />" ++ [10]

/-- What one byte becomes under the escaper: its replacement, or the byte itself. -/
def escapeByte (c : Nat) : GoString := (htmlReplacement c).getD [c]

/-- The (property, content) pairs one `Images` entry hands to `meta`, in order. -/
def imageCalls (g : Image) : List (GoString × GoString) :=
  if !URL.IsValid g.URL then []
  else
    (if g.URL ≠ [] then [(lit "og:image", g.URL)] else [])
    ++ (if g.SecureURL ≠ [] then [(lit "og:image:secure_url", g.SecureURL)] else [])
    ++ (if g.Type_ ≠ [] then [(lit "og:image:type", g.Type_)] else [])
    ++ (if g.Width > 0 then [(lit "og:image:width", Itoa g.Width)] else [])
    ++ (if g.Height > 0 then [(lit "og:image:height", Itoa g.Height)] else [])
    ++ (if g.Alt ≠ [] then [(lit "og:image:alt", g.Alt)] else [])

/-- The (property, content) pairs `HTML o` hands to `meta`, in the order of the calls. -/
def metaCalls (o : OpenGraph) : List (GoString × GoString) :=
  (if o.Title ≠ [] then [(lit "og:title", o.Title)] else [])
  ++ (if o.Type_ ≠ [] then [(lit "og:type", o.Type_)] else [])
  ++ (if o.Images = none ∧ URL.IsValid o.Image = true then [(lit "og:type", o.Image)] else [])
  ++ (o.Images.getD []).flatMap imageCalls
  ++ (if URL.IsValid o.URL then [(lit "og:url", o.URL)] else [])
  ++ (if o.Audio ≠ [] then [(lit "og:audio", o.Audio)] else [])
  ++ (if o.Description ≠ [] then [(lit "og:description", o.Description)] else [])
  ++ (if o.Determiner ≠ [] then [(lit "og:determiner", o.Determiner)] else [])
  ++ (if o.Locale ≠ [] then [(lit "og:locale", o.Locale)] else [])
  ++ o.LocaleAlternate.map (fun loc => (lit "og:locale:alternate", loc))
  ++ (if o.SiteName ≠ [] then [(lit "og:site_name", o.SiteName)] else [])
  ++ (if URL.IsValid o.Video then [(lit "og:video", o.Video)] else [])

/-- The text of a sequence of tags. -/
def renderCalls (calls : List (GoString × GoString)) : GoString :=
  calls.flatMap (fun pc => tag pc.1 pc.2)

/-- Modelled from the spec: the decoding of HTML entities the escaping round trip speaks of;
no decoder is part of this repository.  It reads the text from the left and replaces each of
the entities `&amp;` `&lt;` `&gt;` `&#34;` `&#39;` by its character; every other byte is
kept.  The first argument is the number of bytes still to skip, those of an entity that has
just been decoded. -/
def unescapeFrom : Nat → GoString → GoString
  | _, [] => []
  | skip + 1, _ :: rest => unescapeFrom skip rest
  | 0, c :: rest =>
    if (lit "&amp;").isPrefixOf (c :: rest) then 38 :: unescapeFrom 4 rest
    else if (lit "&lt;").isPrefixOf (c :: rest) then 60 :: unescapeFrom 3 rest
    else if (lit "&gt;").isPrefixOf (c :: rest) then 62 :: unescapeFrom 3 rest
    else if (lit "&#34;").isPrefixOf (c :: rest) then 34 :: unescapeFrom 4 rest
    else if (lit "&#39;").isPrefixOf (c :: rest) then 39 :: unescapeFrom 4 rest
    else c :: unescapeFrom 0 rest

/-- Modelled from the spec: decoding the HTML entities of a text (see `unescapeFrom`). -/
def unescape (s : GoString) : GoString := unescapeFrom 0 s

/-- What may follow an `&` written by the escaper. -/
def entityTails : List GoString := [lit "amp;", lit "lt;", lit "gt;", lit "#34;", lit "#39;"]

/-- Every `&` of the string is followed by one of `entityTails`. -/
def ampersandsEscaped : GoString → Bool
  | [] => true
  | c :: t => (c != 38 || entityTails.any (fun e => e.isPrefixOf t)) && ampersandsEscaped t

/-- The per-entry block of the image list as the specification words it: nothing when the
entry's `URL` is not scheme-valid, otherwise the tags `og:image` (if `URL` is non-empty),
`og:image:secure_url` (if `SecureURL` is non-empty), `og:image:type` (if `Type` is
non-empty), `og:image:width` (decimal, if `Width > 0`), `og:image:height` (decimal, if
`Height > 0`) and `og:image:alt` (if `Alt` is non-empty), in this order. -/
def entryBlock (g : Image) : GoString :=
  if URL.IsValid g.URL = true then
    (if g.URL ≠ [] then tag (lit "og:image") g.URL else [])
    ++ (if g.SecureURL ≠ [] then tag (lit "og:image:secure_url") g.SecureURL else [])
    ++ (if g.Type_ ≠ [] then tag (lit "og:image:type") g.Type_ else [])
    ++ (if g.Width > 0 then tag (lit "og:image:width") (Itoa g.Width) else [])
    ++ (if g.Height > 0 then tag (lit "og:image:height") (Itoa g.Height) else [])
    ++ (if g.Alt ≠ [] then tag (lit "og:image:alt") g.Alt else [])
  else []

/-- The number of occurrences of the text `pat` in `s`: the number of offsets of `s` at which
`pat` starts. -/
def countOcc (pat : GoString) : GoString → Nat
  | [] => if pat.isPrefixOf [] then 1 else 0
  | c :: t => (if pat.isPrefixOf (c :: t) then 1 else 0) + countOcc pat t

/-- The opening of a tag whose property attribute is `q`, up to the quote that opens the
content: `<meta property="`, `q`, `" content="`. -/
def tagOpen (q : GoString) : GoString :=
  lit "<meta property=\"" ++ q ++ lit "\" content=\""

/-- The number that a text of decimal digits denotes, read from the left. -/
def decimalValue (s : GoString) : Nat := s.foldl (fun a d => 10 * a + (d - 48)) 0

/-- The sixteen property names that `HTML` passes to `meta`. -/
def propertyNames : List GoString :=
  [lit "og:title", lit "og:type", lit "og:image", lit "og:image:secure_url",
   lit "og:image:type", lit "og:image:width", lit "og:image:height", lit "og:image:alt",
   lit "og:url", lit "og:audio", lit "og:description", lit "og:determiner", lit "og:locale",
   lit "og:locale:alternate", lit "og:site_name", lit "og:video"]

/-! ## Sample values -/

/-- An `Images` entry with every field set; its secure URL is an `http` one. -/
def sampleImage : Image :=
  { URL := lit "http://a.example/i.png", SecureURL := lit "http://a.example/s.png",
    Type_ := lit "image/png", Width := 640, Height := 480, Alt := lit "A & B" }

/-- An `Images` entry whose `URL` is `not-a-url`, its other fields being set. -/
def skippedImage : Image :=
  { URL := lit "not-a-url", SecureURL := lit "https://a.example/s.png",
    Type_ := lit "image/png", Width := 640, Height := 480, Alt := lit "x" }

/-- The tags of `sampleImage`. -/
def sampleImageTags : GoString :=
  lit "<meta property=\"og:image\" content=\"http://a.example/i.png\" />\n"
  ++ lit "<meta property=\"og:image:secure_url\" content=\"http://a.example/s.png\" />\n"
  ++ lit "<meta property=\"og:image:type\" content=\"image/png\" />\n"
  ++ lit "<meta property=\"og:image:width\" content=\"640\" />\n"
  ++ lit "<meta property=\"og:image:height\" content=\"480\" />\n"
  ++ lit "<meta property=\"og:image:alt\" content=\"A &amp; B\" />\n"

/-! ## Basic lemmas -/

theorem HTMLEscapeLoop_eq (s : GoString) : ∀ w pending : GoString,
    HTMLEscapeLoop w pending s = w ++ pending ++ s.flatMap escapeByte := by
  induction s with
  | nil => intro w pending; simp [HTMLEscapeLoop]
  | cons c rest ih =>
    intro w pending
    rw [HTMLEscapeLoop]
    cases h : htmlReplacement c with
    | none => simp [ih, escapeByte, h]
    | some html => simp [ih, escapeByte, h]

theorem escapeByte_of_not_special (c : Nat)
    (h : (lit "'\"&<>" ++ [0]).contains c = false) : escapeByte c = [c] := by
  have h0 : c ≠ 0 ∧ c ≠ 34 ∧ c ≠ 39 ∧ c ≠ 38 ∧ c ≠ 60 ∧ c ≠ 62 := by
    simp [lit] at h
    omega
  simp [escapeByte, htmlReplacement, h0]

theorem flatMap_escapeByte_of_not_containsAny (s : GoString)
    (h : ContainsAny s (lit "'\"&<>" ++ [0]) = false) : s.flatMap escapeByte = s := by
  induction s with
  | nil => rfl
  | cons c rest ih =>
    simp only [ContainsAny, List.any_cons, Bool.or_eq_false_iff] at h
    rw [List.flatMap_cons, escapeByte_of_not_special c h.1]
    simp only [ContainsAny] at ih
    rw [ih h.2]
    rfl

/-- The escaper works byte by byte. -/
theorem HTMLEscaper_eq (s : GoString) : HTMLEscaper s = s.flatMap escapeByte := by
  unfold HTMLEscaper HTMLEscapeString
  cases h : ContainsAny s (lit "'\"&<>" ++ [0]) with
  | false => simp [flatMap_escapeByte_of_not_containsAny s h]
  | true => simp [HTMLEscapeLoop_eq]

theorem HTMLEscaper_nil : HTMLEscaper [] = [] := by simp [HTMLEscaper_eq]

theorem HTMLEscaper_cons (c : Nat) (s : GoString) :
    HTMLEscaper (c :: s) = escapeByte c ++ HTMLEscaper s := by
  simp [HTMLEscaper_eq]

theorem HTMLEscaper_append (s t : GoString) :
    HTMLEscaper (s ++ t) = HTMLEscaper s ++ HTMLEscaper t := by
  simp [HTMLEscaper_eq]

theorem meta_eq (b p c : GoString) : meta b p c = b ++ tag p c := by
  simp [meta, tag]

theorem ite_meta_eq (P : Prop) [Decidable P] (b p c : GoString) :
    (if P then meta b p c else b) = b ++ (if P then tag p c else []) := by
  split <;> simp [meta_eq]

theorem renderCalls_append (xs ys : List (GoString × GoString)) :
    renderCalls (xs ++ ys) = renderCalls xs ++ renderCalls ys := by
  simp [renderCalls]

theorem renderCalls_ite (P : Prop) [Decidable P] (p c : GoString) :
    renderCalls (if P then [(p, c)] else []) = if P then tag p c else [] := by
  split <;> simp [renderCalls]

/-- One loop iteration appends the tags of the entry to the builder. -/
theorem imagesBody_eq (b : GoString) (g : Image) :
    imagesBody b g = b ++ renderCalls (imageCalls g) := by
  unfold imagesBody imageCalls
  by_cases hv : URL.IsValid g.URL = true
  · simp only [hv, Bool.not_true, Bool.false_eq_true, if_false, ite_meta_eq,
      renderCalls_append, renderCalls_ite, List.append_assoc]
  · simp [hv, renderCalls]

theorem foldl_imagesBody_eq (imgs : List Image) : ∀ b : GoString,
    imgs.foldl imagesBody b = b ++ renderCalls (imgs.flatMap imageCalls) := by
  induction imgs with
  | nil => intro b; simp [renderCalls]
  | cons g rest ih =>
    intro b
    rw [List.foldl_cons, ih, imagesBody_eq, List.flatMap_cons, renderCalls_append,
      List.append_assoc]

theorem foldl_meta_eq (p : GoString) (ls : List GoString) : ∀ b : GoString,
    ls.foldl (fun b loc => meta b p loc) b = b ++ ls.flatMap (fun loc => tag p loc) := by
  induction ls with
  | nil => intro b; simp
  | cons l rest ih =>
    intro b
    rw [List.foldl_cons, ih, meta_eq, List.flatMap_cons, List.append_assoc]

theorem renderCalls_map (p : GoString) (ls : List GoString) :
    renderCalls (ls.map (fun loc => (p, loc))) = ls.flatMap (fun loc => tag p loc) := by
  simp [renderCalls, List.flatMap_map]

theorem titleTypeBlock_eq (o : OpenGraph) :
    titleTypeBlock o = (if o.Title ≠ [] then tag (lit "og:title") o.Title else [])
      ++ (if o.Type_ ≠ [] then tag (lit "og:type") o.Type_ else []) := by
  simp only [titleTypeBlock, ite_meta_eq, List.nil_append]

theorem imageBlock_eq (o : OpenGraph) :
    imageBlock o = (if o.Images = none ∧ URL.IsValid o.Image = true then
        tag (lit "og:type") o.Image else [])
      ++ renderCalls ((o.Images.getD []).flatMap imageCalls) := by
  simp only [imageBlock, ite_meta_eq, foldl_imagesBody_eq, List.nil_append]

theorem trailingBlock_eq (o : OpenGraph) :
    trailingBlock o = (if URL.IsValid o.URL = true then tag (lit "og:url") o.URL else [])
      ++ (if o.Audio ≠ [] then tag (lit "og:audio") o.Audio else [])
      ++ (if o.Description ≠ [] then tag (lit "og:description") o.Description else [])
      ++ (if o.Determiner ≠ [] then tag (lit "og:determiner") o.Determiner else [])
      ++ (if o.Locale ≠ [] then tag (lit "og:locale") o.Locale else [])
      ++ o.LocaleAlternate.flatMap (fun loc => tag (lit "og:locale:alternate") loc)
      ++ (if o.SiteName ≠ [] then tag (lit "og:site_name") o.SiteName else [])
      ++ (if URL.IsValid o.Video = true then tag (lit "og:video") o.Video else []) := by
  simp only [trailingBlock, ite_meta_eq, foldl_meta_eq, List.nil_append, List.append_assoc]

/-- The fragment is the text written before the images, then the image block, then the rest. -/
theorem HTML_eq_blocks (o : OpenGraph) :
    HTML o = titleTypeBlock o ++ imageBlock o ++ trailingBlock o := by
  simp only [HTML, titleTypeBlock_eq, imageBlock_eq, trailingBlock_eq, ite_meta_eq,
    foldl_meta_eq, foldl_imagesBody_eq, List.nil_append, List.append_assoc]

/-- The fragment is the text of the tags of `metaCalls`. -/
theorem HTML_eq_renderCalls (o : OpenGraph) : HTML o = renderCalls (metaCalls o) := by
  simp only [HTML, metaCalls, ite_meta_eq, foldl_meta_eq, foldl_imagesBody_eq,
    renderCalls_append, renderCalls_ite, renderCalls_map, List.nil_append, List.append_assoc]

/-! ## The escaper -/

theorem mem_escapeByte (x c : Nat) (h : x ∈ escapeByte c) :
    x ≠ 60 ∧ x ≠ 62 ∧ x ≠ 34 ∧ x ≠ 39 := by
  unfold escapeByte htmlReplacement at h
  split_ifs at h <;> simp [lit] at h <;> omega

theorem mem_HTMLEscaper (x : Nat) (s : GoString) (h : x ∈ HTMLEscaper s) :
    x ≠ 60 ∧ x ≠ 62 ∧ x ≠ 34 ∧ x ≠ 39 := by
  rw [HTMLEscaper_eq, List.mem_flatMap] at h
  obtain ⟨c, _, hx⟩ := h
  exact mem_escapeByte x c hx

theorem ampersandsEscaped_HTMLEscaper (s : GoString) :
    ampersandsEscaped (HTMLEscaper s) = true := by
  induction s with
  | nil => simp [HTMLEscaper_nil, ampersandsEscaped]
  | cons c rest ih =>
    rw [HTMLEscaper_cons]
    unfold escapeByte htmlReplacement
    split_ifs with h0 h34 h39 h38 <;> simp [lit, ampersandsEscaped, entityTails, ih]
    exact Or.inl h38

theorem ampersandsEscaped_split : ∀ (l pre post : GoString),
    ampersandsEscaped l = true → l = pre ++ 38 :: post →
    ∃ e ∈ entityTails, e <+: post := by
  intro l pre
  induction pre generalizing l with
  | nil =>
    intro post h hl
    subst hl
    simp only [List.nil_append, ampersandsEscaped, bne_self_eq_false, Bool.false_or,
      Bool.and_eq_true, List.any_eq_true] at h
    obtain ⟨⟨e, he, hp⟩, _⟩ := h
    exact ⟨e, he, List.isPrefixOf_iff_prefix.mp hp⟩
  | cons a pre ih =>
    intro post h hl
    subst hl
    simp only [List.cons_append, ampersandsEscaped, Bool.and_eq_true] at h
    exact ih _ post h.2 rfl

/-! ## The characters of the tag scaffolding -/

theorem count_HTMLEscaper (s : GoString) :
    (HTMLEscaper s).count 60 = 0 ∧ (HTMLEscaper s).count 62 = 0
      ∧ (HTMLEscaper s).count 34 = 0 := by
  refine ⟨?_, ?_, ?_⟩ <;> rw [List.count_eq_zero] <;> intro h
  · exact (mem_HTMLEscaper 60 s h).1 rfl
  · exact (mem_HTMLEscaper 62 s h).2.1 rfl
  · exact (mem_HTMLEscaper 34 s h).2.2.1 rfl

/-- A tag is one `<` followed by text that has no `<`. -/
theorem tag_eq_cons (p c : GoString) :
    ∃ body : GoString, tag p c = 60 :: body ∧ 60 ∉ body
      ∧ lit "<meta property=\"" <+: 60 :: body := by
  refine ⟨lit "meta property=\"" ++ HTMLEscaper p ++ lit "\" content=\"" ++ HTMLEscaper c
    ++ lit "\" />" ++ [10], ?_, ?_, ?_⟩
  · simp [tag, lit]
  · have hp := mem_HTMLEscaper 60 p
    have hc := mem_HTMLEscaper 60 c
    simp only [List.mem_append, not_or]
    refine ⟨⟨⟨⟨⟨by decide, fun h => (hp h).1 rfl⟩, by decide⟩, fun h => (hc h).1 rfl⟩,
      by decide⟩, by decide⟩
  · simp [lit]

theorem count_tag (p c : GoString) :
    (tag p c).count 60 = 1 ∧ (tag p c).count 62 = 1 ∧ (tag p c).count 34 = 4 := by
  obtain ⟨hp1, hp2, hp3⟩ := count_HTMLEscaper p
  obtain ⟨hc1, hc2, hc3⟩ := count_HTMLEscaper c
  have l1 : (lit "<meta property=\"").count 60 = 1 ∧ (lit "<meta property=\"").count 62 = 0
      ∧ (lit "<meta property=\"").count 34 = 1 := by decide
  have l2 : (lit "\" content=\"").count 60 = 0 ∧ (lit "\" content=\"").count 62 = 0
      ∧ (lit "\" content=\"").count 34 = 2 := by decide
  have l3 : (lit "\" />").count 60 = 0 ∧ (lit "\" />").count 62 = 1
      ∧ (lit "\" />").count 34 = 1 := by decide
  have l4 : ([10] : GoString).count 60 = 0 ∧ ([10] : GoString).count 62 = 0
      ∧ ([10] : GoString).count 34 = 0 := by decide
  simp only [tag, List.count_append, hp1, hp2, hp3, hc1, hc2, hc3, l1, l2, l3, l4]
  decide

theorem count_renderCalls (calls : List (GoString × GoString)) :
    (renderCalls calls).count 60 = calls.length
      ∧ (renderCalls calls).count 62 = calls.length
      ∧ (renderCalls calls).count 34 = 4 * calls.length := by
  induction calls with
  | nil => simp [renderCalls]
  | cons pc rest ih =>
    obtain ⟨h1, h2, h3⟩ := count_tag pc.1 pc.2
    have hr : renderCalls (pc :: rest) = tag pc.1 pc.2 ++ renderCalls rest := by
      simp [renderCalls]
    rw [hr]
    simp only [List.count_append, h1, h2, h3, ih.1, ih.2.1, ih.2.2, List.length_cons]
    omega

/-- Splitting an append at an element that the first part does not have. -/
theorem append_eq_split_of_not_mem {x : Nat} : ∀ (a b pre post : GoString), x ∉ a →
    a ++ b = pre ++ x :: post → ∃ pre2 : GoString, pre = a ++ pre2 ∧ b = pre2 ++ x :: post := by
  intro a
  induction a with
  | nil => intro b pre post _ h; exact ⟨pre, rfl, h⟩
  | cons y a ih =>
    intro b pre post hx h
    cases pre with
    | nil =>
      simp only [List.cons_append, List.nil_append, List.cons.injEq] at h
      exact absurd (h.1 ▸ List.mem_cons_self y a) hx
    | cons z pre =>
      simp only [List.cons_append, List.cons.injEq] at h
      obtain ⟨pre2, h1, h2⟩ := ih b pre post (fun hm => hx (List.mem_cons_of_mem _ hm)) h.2
      exact ⟨pre2, by rw [h.1, h1]; rfl, h2⟩

/-- Every `<` of the text of a sequence of tags opens one of the tags. -/
theorem lt_opens_tag (calls : List (GoString × GoString)) : ∀ pre post : GoString,
    renderCalls calls = pre ++ 60 :: post → lit "<meta property=\"" <+: 60 :: post := by
  induction calls with
  | nil => intro pre post h; simp [renderCalls] at h
  | cons pc rest ih =>
    intro pre post h
    have hr : renderCalls (pc :: rest) = tag pc.1 pc.2 ++ renderCalls rest := by
      simp [renderCalls]
    obtain ⟨body, hb, hnot, hpre⟩ := tag_eq_cons pc.1 pc.2
    rw [hr, hb] at h
    cases pre with
    | nil =>
      simp only [List.cons_append, List.nil_append, List.cons.injEq, true_and] at h
      rw [← h]
      exact hpre.trans (List.prefix_append (60 :: body) (renderCalls rest))
    | cons z pre =>
      simp only [List.cons_append, List.cons.injEq] at h
      obtain ⟨pre2, _, h2⟩ := append_eq_split_of_not_mem body _ pre post hnot h.2
      exact ih pre2 post h2

/-! ## Decoding -/

/-- Decoding gives back a text without NUL that was escaped. -/
theorem unescape_HTMLEscaper (t : GoString) (h0 : 0 ∉ t) : unescape (HTMLEscaper t) = t := by
  unfold unescape
  induction t with
  | nil => simp [HTMLEscaper_nil, unescapeFrom]
  | cons c rest ih =>
    have hc : c ≠ 0 := fun h => h0 (h ▸ List.mem_cons_self c rest)
    have ih2 := ih (fun h => h0 (List.mem_cons_of_mem c h))
    rw [HTMLEscaper_cons]
    unfold escapeByte htmlReplacement
    split_ifs with hz h34 h39 h38 h60 h62
    · exact absurd hz hc
    · subst h34; simp [lit, unescapeFrom, ih2]
    · subst h39; simp [lit, unescapeFrom, ih2]
    · subst h38; simp [lit, unescapeFrom, ih2]
    · subst h60; simp [lit, unescapeFrom, ih2]
    · subst h62; simp [lit, unescapeFrom, ih2]
    · have h38b : ¬ (38 = c) := fun h => h38 h.symm
      simp [lit, unescapeFrom, ih2, h38b]

/-- The escaped form of `<script>alert(1)</script>`. -/
theorem HTMLEscaper_script :
    HTMLEscaper (lit "<script>alert(1)</script>")
      = lit "&lt;script&gt;alert(1)&lt;/script&gt;" := by
  decide

theorem HTML_title (o : OpenGraph) (h : o.Title ≠ []) :
    HTML o = tag (lit "og:title") o.Title ++ HTML { o with Title := [] } := by
  rw [HTML_eq_renderCalls, HTML_eq_renderCalls]
  simp [metaCalls, h, renderCalls]

/-! ## Prefixes and the image block -/

theorem HasPrefix_iff (s pre : GoString) : HasPrefix s pre = true ↔ pre <+: s := by
  unfold HasPrefix
  rw [List.prefix_iff_eq_take]
  simp only [Bool.and_eq_true, decide_eq_true_eq, beq_iff_eq]
  constructor
  · rintro ⟨_, h⟩
    exact h.symm
  · intro h
    refine ⟨?_, h.symm⟩
    have hl := congrArg List.length h
    rw [List.length_take] at hl
    omega

theorem URL_IsValid_iff (u : URL) :
    URL.IsValid u = true ↔ (lit "http://" <+: u ∨ lit "https://" <+: u) := by
  simp [URL.IsValid, HasPrefix_iff]

theorem renderCalls_imageCalls (g : Image) : renderCalls (imageCalls g) = entryBlock g := by
  unfold imageCalls entryBlock
  by_cases hv : URL.IsValid g.URL = true
  · simp only [hv, Bool.not_true, Bool.false_eq_true, if_false, if_true,
      renderCalls_append, renderCalls_ite]
  · simp [hv, renderCalls]

theorem renderCalls_flatMap_imageCalls (imgs : List Image) :
    renderCalls (imgs.flatMap imageCalls) = imgs.flatMap entryBlock := by
  induction imgs with
  | nil => rfl
  | cons g rest ih =>
    rw [List.flatMap_cons, renderCalls_append, ih, renderCalls_imageCalls, List.flatMap_cons]

theorem imagesBody_nil_eq (g : Image) : imagesBody [] g = entryBlock g := by
  rw [imagesBody_eq, renderCalls_imageCalls, List.nil_append]

theorem imageBlock_some (o : OpenGraph) (imgs : List Image) (h : o.Images = some imgs) :
    imageBlock o = imgs.flatMap entryBlock := by
  rw [imageBlock_eq, h]
  simp [renderCalls_flatMap_imageCalls]

theorem imageBlock_none (o : OpenGraph) (h : o.Images = none) :
    imageBlock o = if URL.IsValid o.Image = true then tag (lit "og:type") o.Image else [] := by
  rw [imageBlock_eq, h]
  simp [renderCalls]

theorem entryBlock_of_not_valid (e : Image) (h : URL.IsValid e.URL = false) :
    entryBlock e = [] := by
  simp [entryBlock, h]

/-! ## Counting tags -/

theorem countOcc_append_of_not_mem (x : Nat) (pat : GoString) : ∀ a b : GoString, x ∉ a →
    countOcc (x :: pat) (a ++ b) = countOcc (x :: pat) b := by
  intro a
  induction a with
  | nil => intro b _; rfl
  | cons y a ih =>
    intro b h
    have hxy : ¬ (x = y) := fun e => h (e ▸ List.mem_cons_self x a)
    have ha : x ∉ a := fun hm => h (List.mem_cons_of_mem y hm)
    simp [countOcc, List.isPrefixOf, hxy, ih b ha]

/-- Between two texts without a quote, each followed by a quote, a prefix forces equality. -/
theorem prefix_quote_iff : ∀ (q p u v : GoString), 34 ∉ q → 34 ∉ p →
    ((q ++ 34 :: u) <+: (p ++ 34 :: v) ↔ q = p ∧ u <+: v) := by
  intro q
  induction q with
  | nil =>
    intro p u v _ hp
    cases p with
    | nil => simp [List.prefix_cons_inj]
    | cons b p =>
      have hb : ¬ (34 = b) := fun e => hp (e ▸ List.mem_cons_self 34 p)
      simp [List.cons_prefix_cons, hb]
  | cons a q ih =>
    intro p u v hq hp
    have ha : ¬ (a = 34) := fun e => hq (e ▸ List.mem_cons_self a q)
    have hq2 : 34 ∉ q := fun hm => hq (List.mem_cons_of_mem a hm)
    cases p with
    | nil => simp [List.cons_prefix_cons, ha]
    | cons b p =>
      have hp2 : 34 ∉ p := fun hm => hp (List.mem_cons_of_mem b hm)
      simp only [List.cons_append, List.cons_prefix_cons, ih p u v hq2 hp2, List.cons.injEq]
      tauto

/-- A tag starts with the opening for `q` exactly when its escaped property is `q`. -/
theorem tagOpen_prefix_iff (q p c rest : GoString) (hq : 34 ∉ q) :
    tagOpen q <+: tag p c ++ rest ↔ HTMLEscaper p = q := by
  have hp : 34 ∉ HTMLEscaper p := fun h => (mem_HTMLEscaper 34 p h).2.2.1 rfl
  have e : lit "\" content=\"" = 34 :: lit " content=\"" := by decide
  unfold tagOpen tag
  simp only [List.append_assoc, List.prefix_append_right_inj, e, List.cons_append]
  rw [prefix_quote_iff q (HTMLEscaper p) _ _ hq hp]
  constructor
  · exact fun h => h.1.symm
  · exact fun h => ⟨h.symm, List.prefix_append _ _⟩

theorem countOcc_tag_append (q p c rest : GoString) (hq : 34 ∉ q) :
    countOcc (tagOpen q) (tag p c ++ rest)
      = (if HTMLEscaper p = q then 1 else 0) + countOcc (tagOpen q) rest := by
  have hpre := tagOpen_prefix_iff q p c rest hq
  obtain ⟨body, hb, hnot, _⟩ := tag_eq_cons p c
  have ho : tagOpen q = 60 :: (lit "meta property=\"" ++ q ++ lit "\" content=\"") := by
    simp [tagOpen, lit]
  rw [← List.isPrefixOf_iff_prefix] at hpre
  rw [hb] at hpre ⊢
  rw [List.cons_append] at hpre ⊢
  rw [countOcc]
  congr 1
  · by_cases h : HTMLEscaper p = q
    · simp [h, hpre.mpr h]
    · have : (tagOpen q).isPrefixOf (60 :: (body ++ rest)) = false := by
        cases hh : (tagOpen q).isPrefixOf (60 :: (body ++ rest)) with
        | false => rfl
        | true => exact absurd (hpre.mp hh) h
      simp [h, this]
  · rw [ho]
    exact countOcc_append_of_not_mem 60 _ body rest hnot

/-- The occurrences of the opening for `q` in the text of a sequence of tags are the tags whose
escaped property is `q`. -/
theorem countOcc_renderCalls (q : GoString) (hq : 34 ∉ q)
    (calls : List (GoString × GoString)) :
    countOcc (tagOpen q) (renderCalls calls)
      = calls.countP (fun pc => HTMLEscaper pc.1 == q) := by
  induction calls with
  | nil => simp [renderCalls, countOcc, tagOpen, lit, List.isPrefixOf]
  | cons pc rest ih =>
    have hr : renderCalls (pc :: rest) = tag pc.1 pc.2 ++ renderCalls rest := by
      simp [renderCalls]
    rw [hr, countOcc_tag_append q pc.1 pc.2 _ hq, ih, List.countP_cons]
    by_cases h : HTMLEscaper pc.1 = q
    · simp [h]; omega
    · simp [h]

theorem countOcc_HTML (q : GoString) (hq : 34 ∉ q) (o : OpenGraph) :
    countOcc (tagOpen q) (HTML o)
      = (metaCalls o).countP (fun pc => HTMLEscaper pc.1 == q) := by
  rw [HTML_eq_renderCalls, countOcc_renderCalls q hq]

theorem countP_ite_singleton (f : GoString × GoString → Bool) (P : Prop) [Decidable P]
    (x : GoString × GoString) :
    (if P then [x] else []).countP f = if P ∧ f x = true then 1 else 0 := by
  by_cases h : P <;> by_cases hf : f x = true <;> simp [h, hf]

/-- The properties of the tags of an `Images` entry. -/
theorem imageCalls_property (g : Image) (pc : GoString × GoString) (h : pc ∈ imageCalls g) :
    pc.1 ∈ [lit "og:image", lit "og:image:secure_url", lit "og:image:type",
      lit "og:image:width", lit "og:image:height", lit "og:image:alt"] := by
  unfold imageCalls at h
  split at h
  · simp at h
  · simp only [List.mem_append] at h
    rcases h with ((((h | h) | h) | h) | h) | h <;> split at h <;> simp at h <;> simp [h]

theorem countP_url_metaCalls (o : OpenGraph) :
    (metaCalls o).countP (fun pc => HTMLEscaper pc.1 == lit "og:url")
      = if URL.IsValid o.URL = true then 1 else 0 := by
  have himg : ((o.Images.getD []).flatMap imageCalls).countP
      (fun pc => HTMLEscaper pc.1 == lit "og:url") = 0 := by
    rw [List.countP_eq_zero]
    intro pc hpc
    obtain ⟨g, _, hg⟩ := List.mem_flatMap.mp hpc
    have hn := imageCalls_property g pc hg
    simp only [List.mem_cons, List.mem_singleton, List.not_mem_nil, or_false] at hn
    rcases hn with h | h | h | h | h | h <;> rw [h] <;> decide
  have hloc : (o.LocaleAlternate.map (fun loc => (lit "og:locale:alternate", loc))).countP
      (fun pc => HTMLEscaper pc.1 == lit "og:url") = 0 := by
    rw [List.countP_eq_zero]
    intro pc hpc
    obtain ⟨l, _, hl⟩ := List.mem_map.mp hpc
    rw [← hl]
    show ¬ ((HTMLEscaper (lit "og:locale:alternate") == lit "og:url") = true)
    decide
  have e1 : (HTMLEscaper (lit "og:title") == lit "og:url") = false := by decide
  have e2 : (HTMLEscaper (lit "og:type") == lit "og:url") = false := by decide
  have e3 : (HTMLEscaper (lit "og:url") == lit "og:url") = true := by decide
  have e4 : (HTMLEscaper (lit "og:audio") == lit "og:url") = false := by decide
  have e5 : (HTMLEscaper (lit "og:description") == lit "og:url") = false := by decide
  have e6 : (HTMLEscaper (lit "og:determiner") == lit "og:url") = false := by decide
  have e7 : (HTMLEscaper (lit "og:locale") == lit "og:url") = false := by decide
  have e8 : (HTMLEscaper (lit "og:site_name") == lit "og:url") = false := by decide
  have e9 : (HTMLEscaper (lit "og:video") == lit "og:url") = false := by decide
  simp only [metaCalls, List.countP_append, countP_ite_singleton, himg, hloc, e1, e2, e3, e4,
    e5, e6, e7, e8, e9, and_true, Bool.false_eq_true, and_false, if_false, Nat.zero_add,
    Nat.add_zero]

theorem trailingBlock_url (o : OpenGraph) (h : URL.IsValid o.URL = true) :
    trailingBlock o = tag (lit "og:url") o.URL ++ trailingBlock { o with URL := [] } := by
  have hn : URL.IsValid ([] : URL) = false := by decide
  rw [trailingBlock_eq, trailingBlock_eq]
  simp [h, hn]

/-! ## Decimal strings -/

theorem decimalValue_append_singleton (ds : GoString) (d : Nat) :
    decimalValue (ds ++ [d]) = 10 * decimalValue ds + (d - 48) := by
  simp [decimalValue, List.foldl_append]

theorem decimalDigits_spec : ∀ (fuel n : Nat) (acc : GoString), n < fuel →
    ∃ ds : GoString, decimalDigits fuel n acc = ds ++ acc ∧ ds ≠ []
      ∧ (∀ d ∈ ds, 48 ≤ d ∧ d ≤ 57) ∧ (0 < n → ds.head? ≠ some 48)
      ∧ decimalValue ds = n := by
  intro fuel
  induction fuel with
  | zero => intro n acc h; omega
  | succ fuel ih =>
    intro n acc h
    rw [decimalDigits]
    by_cases hn : n < 10
    · refine ⟨[48 + n], by simp [hn], by simp, ?_, ?_, by simp [decimalValue]⟩
      · intro d hd
        simp only [List.mem_singleton] at hd
        omega
      · intro hpos
        simp only [List.head?_cons, ne_eq, Option.some.injEq]
        omega
    · have hlt : n / 10 < fuel := by omega
      obtain ⟨ds, h1, h2, h3, h4, h5⟩ := ih (n / 10) ((48 + n % 10) :: acc) hlt
      refine ⟨ds ++ [48 + n % 10], by simp [hn, h1], by simp, ?_, ?_, ?_⟩
      · intro d hd
        rcases List.mem_append.mp hd with hd | hd
        · exact h3 d hd
        · simp only [List.mem_singleton] at hd
          omega
      · intro _
        have hq : 0 < n / 10 := by omega
        cases ds with
        | nil => exact absurd rfl h2
        | cons x xs => simpa using h4 hq
      · rw [decimalValue_append_singleton, h5]
        omega

/-- The decimal string of a positive `int`: digits only, no leading zero, of the right
value. -/
theorem Itoa_pos (w : Int) (h : w > 0) :
    Itoa w ≠ [] ∧ (∀ d ∈ Itoa w, 48 ≤ d ∧ d ≤ 57) ∧ (Itoa w).head? ≠ some 48
      ∧ (decimalValue (Itoa w) : Int) = w := by
  have hneg : ¬ w < 0 := by omega
  obtain ⟨ds, h1, h2, h3, h4, h5⟩ := decimalDigits_spec (w.toNat + 1) w.toNat [] (by omega)
  rw [List.append_nil] at h1
  simp only [Itoa, hneg, if_false, h1]
  refine ⟨h2, h3, h4 (by omega), ?_⟩
  rw [h5]
  omega

/-- The escaper keeps a text of digits as it is. -/
theorem HTMLEscaper_digits (s : GoString) (h : ∀ d ∈ s, 48 ≤ d ∧ d ≤ 57) :
    HTMLEscaper s = s := by
  rw [HTMLEscaper_eq]
  induction s with
  | nil => rfl
  | cons c rest ih =>
    have hc := h c (List.mem_cons_self c rest)
    have e : escapeByte c = [c] := by
      unfold escapeByte htmlReplacement
      split_ifs <;> first | omega | rfl
    rw [List.flatMap_cons, e, ih (fun d hd => h d (List.mem_cons_of_mem c hd))]
    rfl

theorem countP_width_imageCalls (g : Image) (hv : URL.IsValid g.URL = true) :
    (imageCalls g).countP (fun pc => HTMLEscaper pc.1 == lit "og:image:width")
      = if g.Width > 0 then 1 else 0 := by
  have e1 : (HTMLEscaper (lit "og:image") == lit "og:image:width") = false := by decide
  have e2 : (HTMLEscaper (lit "og:image:secure_url") == lit "og:image:width") = false := by
    decide
  have e3 : (HTMLEscaper (lit "og:image:type") == lit "og:image:width") = false := by decide
  have e4 : (HTMLEscaper (lit "og:image:width") == lit "og:image:width") = true := by decide
  have e5 : (HTMLEscaper (lit "og:image:height") == lit "og:image:width") = false := by decide
  have e6 : (HTMLEscaper (lit "og:image:alt") == lit "og:image:width") = false := by decide
  simp only [imageCalls, hv, Bool.not_true, Bool.false_eq_true, if_false, List.countP_append,
    countP_ite_singleton, e1, e2, e3, e4, e5, e6, and_true, and_false, Nat.zero_add,
    Nat.add_zero]

theorem countP_height_imageCalls (g : Image) (hv : URL.IsValid g.URL = true) :
    (imageCalls g).countP (fun pc => HTMLEscaper pc.1 == lit "og:image:height")
      = if g.Height > 0 then 1 else 0 := by
  have e1 : (HTMLEscaper (lit "og:image") == lit "og:image:height") = false := by decide
  have e2 : (HTMLEscaper (lit "og:image:secure_url") == lit "og:image:height") = false := by
    decide
  have e3 : (HTMLEscaper (lit "og:image:type") == lit "og:image:height") = false := by decide
  have e4 : (HTMLEscaper (lit "og:image:width") == lit "og:image:height") = false := by decide
  have e5 : (HTMLEscaper (lit "og:image:height") == lit "og:image:height") = true := by decide
  have e6 : (HTMLEscaper (lit "og:image:alt") == lit "og:image:height") = false := by decide
  simp only [imageCalls, hv, Bool.not_true, Bool.false_eq_true, if_false, List.countP_append,
    countP_ite_singleton, e1, e2, e3, e4, e5, e6, and_true, and_false, Nat.zero_add,
    Nat.add_zero]

/-- The tag of a dimension: its content is the decimal string itself. -/
theorem tag_dimension (p : GoString) (hp : HTMLEscaper p = p) (w : Int) (h : w > 0) :
    tag p (Itoa w) = tagOpen p ++ Itoa w ++ lit "\" />\n" := by
  rw [tag, hp, HTMLEscaper_digits (Itoa w) (Itoa_pos w h).2.1, tagOpen]
  simp [lit]

/-! ## Property names -/

/-- The escaper keeps each of the sixteen property names as it is. -/
theorem HTMLEscaper_propertyNames (p : GoString) (h : p ∈ propertyNames) :
    HTMLEscaper p = p := by
  simp only [propertyNames, List.mem_cons, List.mem_singleton, List.not_mem_nil,
    or_false] at h
  rcases h with h | h | h | h | h | h | h | h | h | h | h | h | h | h | h | h <;>
    rw [h] <;> decide

theorem imageCalls_mem_propertyNames (g : Image) (pc : GoString × GoString)
    (h : pc ∈ imageCalls g) : pc.1 ∈ propertyNames := by
  have hn := imageCalls_property g pc h
  simp only [List.mem_cons, List.mem_singleton, List.not_mem_nil, or_false] at hn
  rcases hn with h | h | h | h | h | h <;> rw [h] <;> decide

theorem metaCalls_mem_propertyNames (o : OpenGraph) (pc : GoString × GoString)
    (h : pc ∈ metaCalls o) : pc.1 ∈ propertyNames := by
  unfold metaCalls at h
  simp only [List.mem_append] at h
  rcases h with ((((((((((h | h) | h) | h) | h) | h) | h) | h) | h) | h) | h) | h
  · split at h <;> simp at h; rw [h]; simp [propertyNames]
  · split at h <;> simp at h; rw [h]; simp [propertyNames]
  · split at h <;> simp at h; rw [h]; simp [propertyNames]
  · obtain ⟨g, _, hg⟩ := List.mem_flatMap.mp h
    exact imageCalls_mem_propertyNames g pc hg
  · split at h <;> simp at h; rw [h]; simp [propertyNames]
  · split at h <;> simp at h; rw [h]; simp [propertyNames]
  · split at h <;> simp at h; rw [h]; simp [propertyNames]
  · split at h <;> simp at h; rw [h]; simp [propertyNames]
  · split at h <;> simp at h; rw [h]; simp [propertyNames]
  · obtain ⟨l, _, hl⟩ := List.mem_map.mp h
    rw [← hl]; simp [propertyNames]
  · split at h <;> simp at h; rw [h]; simp [propertyNames]
  · split at h <;> simp at h; rw [h]; simp [propertyNames]

/-- The tags whose escaped property is `q`, counted over the calls of `HTML`, step by step. -/
theorem countP_metaCalls (q : GoString) (o : OpenGraph) :
    (metaCalls o).countP (fun pc => HTMLEscaper pc.1 == q)
      = (if o.Title ≠ [] ∧ lit "og:title" = q then 1 else 0)
        + (if o.Type_ ≠ [] ∧ lit "og:type" = q then 1 else 0)
        + (if (o.Images = none ∧ URL.IsValid o.Image = true) ∧ lit "og:type" = q then 1 else 0)
        + ((o.Images.getD []).flatMap imageCalls).countP (fun pc => HTMLEscaper pc.1 == q)
        + (if URL.IsValid o.URL = true ∧ lit "og:url" = q then 1 else 0)
        + (if o.Audio ≠ [] ∧ lit "og:audio" = q then 1 else 0)
        + (if o.Description ≠ [] ∧ lit "og:description" = q then 1 else 0)
        + (if o.Determiner ≠ [] ∧ lit "og:determiner" = q then 1 else 0)
        + (if o.Locale ≠ [] ∧ lit "og:locale" = q then 1 else 0)
        + (if lit "og:locale:alternate" = q then o.LocaleAlternate.length else 0)
        + (if o.SiteName ≠ [] ∧ lit "og:site_name" = q then 1 else 0)
        + (if URL.IsValid o.Video = true ∧ lit "og:video" = q then 1 else 0) := by
  have e1 : HTMLEscaper (lit "og:title") = lit "og:title" := by decide
  have e2 : HTMLEscaper (lit "og:type") = lit "og:type" := by decide
  have e3 : HTMLEscaper (lit "og:url") = lit "og:url" := by decide
  have e4 : HTMLEscaper (lit "og:audio") = lit "og:audio" := by decide
  have e5 : HTMLEscaper (lit "og:description") = lit "og:description" := by decide
  have e6 : HTMLEscaper (lit "og:determiner") = lit "og:determiner" := by decide
  have e7 : HTMLEscaper (lit "og:locale") = lit "og:locale" := by decide
  have e8 : HTMLEscaper (lit "og:site_name") = lit "og:site_name" := by decide
  have e9 : HTMLEscaper (lit "og:video") = lit "og:video" := by decide
  have e10 : HTMLEscaper (lit "og:locale:alternate") = lit "og:locale:alternate" := by decide
  have hloc : (o.LocaleAlternate.map (fun loc => (lit "og:locale:alternate", loc))).countP
      (fun pc => HTMLEscaper pc.1 == q)
      = if lit "og:locale:alternate" = q then o.LocaleAlternate.length else 0 := by
    induction o.LocaleAlternate with
    | nil => simp
    | cons l ls ih =>
      rw [List.map_cons, List.countP_cons, ih]
      by_cases h : lit "og:locale:alternate" = q
      · subst h
        simp [e10]
      · simp [e10, h]
  simp only [metaCalls, List.countP_append, countP_ite_singleton, hloc, e1, e2, e3, e4, e5,
    e6, e7, e8, e9, beq_iff_eq]

/-- No tag of the image list has a property outside the six image properties. -/
theorem countP_imageCalls_zero (q : GoString) (imgs : List Image)
    (hq : q ∉ [lit "og:image", lit "og:image:secure_url", lit "og:image:type",
      lit "og:image:width", lit "og:image:height", lit "og:image:alt"]) :
    (imgs.flatMap imageCalls).countP (fun pc => HTMLEscaper pc.1 == q) = 0 := by
  rw [List.countP_eq_zero]
  intro pc hpc
  obtain ⟨g, _, hg⟩ := List.mem_flatMap.mp hpc
  have hn := imageCalls_property g pc hg
  have he := HTMLEscaper_propertyNames pc.1 (imageCalls_mem_propertyNames g pc hg)
  rw [he]
  intro hb
  rw [beq_iff_eq] at hb
  exact hq (hb ▸ hn)

/-- A tag with one of the sixteen property names, written out. -/
theorem tag_of_propertyName (p c : GoString) (h : p ∈ propertyNames) :
    tag p c = tagOpen p ++ HTMLEscaper c ++ lit "\" />\n" := by
  rw [tag, HTMLEscaper_propertyNames p h, tagOpen]
  simp [lit]

theorem URL_IsValid_nil : URL.IsValid ([] : URL) = false := by decide

theorem HTML_eq_tags (o : OpenGraph) :
    HTML o =
      (if o.Title ≠ [] then tag (lit "og:title") o.Title else [])
      ++ (if o.Type_ ≠ [] then tag (lit "og:type") o.Type_ else [])
      ++ imageBlock o
      ++ (if URL.IsValid o.URL = true then tag (lit "og:url") o.URL else [])
      ++ (if o.Audio ≠ [] then tag (lit "og:audio") o.Audio else [])
      ++ (if o.Description ≠ [] then tag (lit "og:description") o.Description else [])
      ++ (if o.Determiner ≠ [] then tag (lit "og:determiner") o.Determiner else [])
      ++ (if o.Locale ≠ [] then tag (lit "og:locale") o.Locale else [])
      ++ o.LocaleAlternate.flatMap (fun l => tag (lit "og:locale:alternate") l)
      ++ (if o.SiteName ≠ [] then tag (lit "og:site_name") o.SiteName else [])
      ++ (if URL.IsValid o.Video = true then tag (lit "og:video") o.Video else []) := by
  rw [HTML_eq_blocks, titleTypeBlock_eq, trailingBlock_eq]
  simp only [List.append_assoc]

/-- The escaper keeps a text as it is when the text has none of `&` `<` `>` `"` `'` NUL. -/
theorem HTMLEscaper_of_no_special (s : GoString)
    (h : ∀ c ∈ s, c ≠ 38 ∧ c ≠ 60 ∧ c ≠ 62 ∧ c ≠ 34 ∧ c ≠ 39 ∧ c ≠ 0) : HTMLEscaper s = s := by
  rw [HTMLEscaper_eq]
  induction s with
  | nil => rfl
  | cons c rest ih =>
    have hc := h c (List.mem_cons_self c rest)
    have e : escapeByte c = [c] := by
      unfold escapeByte htmlReplacement
      split_ifs <;> first | omega | rfl
    rw [List.flatMap_cons, e, ih (fun d hd => h d (List.mem_cons_of_mem c hd))]
    rfl

/-- A scheme-valid URL is not the empty string. -/
theorem URL_IsValid_ne_nil (u : URL) (h : URL.IsValid u = true) : u ≠ [] := by
  rintro rfl
  exact absurd h (by decide)

theorem countP_image_imageCalls (g : Image) :
    (imageCalls g).countP (fun pc => HTMLEscaper pc.1 == lit "og:image")
      = if URL.IsValid g.URL = true then 1 else 0 := by
  have e1 : (HTMLEscaper (lit "og:image") == lit "og:image") = true := by decide
  have e2 : (HTMLEscaper (lit "og:image:secure_url") == lit "og:image") = false := by decide
  have e3 : (HTMLEscaper (lit "og:image:type") == lit "og:image") = false := by decide
  have e4 : (HTMLEscaper (lit "og:image:width") == lit "og:image") = false := by decide
  have e5 : (HTMLEscaper (lit "og:image:height") == lit "og:image") = false := by decide
  have e6 : (HTMLEscaper (lit "og:image:alt") == lit "og:image") = false := by decide
  by_cases hv : URL.IsValid g.URL = true
  · have hne := URL_IsValid_ne_nil g.URL hv
    simp only [imageCalls, hv, Bool.not_true, Bool.false_eq_true, if_false, if_true,
      List.countP_append, countP_ite_singleton, e1, e2, e3, e4, e5, e6, and_true, and_false,
      Nat.zero_add, Nat.add_zero, hne, ne_eq, not_false_eq_true]
    simp [e1]
  · simp [imageCalls, hv]

theorem countP_image_flatMap_imageCalls (imgs : List Image) :
    (imgs.flatMap imageCalls).countP (fun pc => HTMLEscaper pc.1 == lit "og:image")
      = imgs.countP (fun g => URL.IsValid g.URL) := by
  induction imgs with
  | nil => rfl
  | cons g rest ih =>
    rw [List.flatMap_cons, List.countP_append, ih, countP_image_imageCalls, List.countP_cons]
    omega

/-- The block of an entry that is not skipped starts with its `og:image` tag. -/
theorem entryBlock_of_valid (g : Image) (h : URL.IsValid g.URL = true) :
    entryBlock g = tag (lit "og:image") g.URL
      ++ ((if g.SecureURL ≠ [] then tag (lit "og:image:secure_url") g.SecureURL else [])
          ++ (if g.Type_ ≠ [] then tag (lit "og:image:type") g.Type_ else [])
          ++ (if g.Width > 0 then tag (lit "og:image:width") (Itoa g.Width) else [])
          ++ (if g.Height > 0 then tag (lit "og:image:height") (Itoa g.Height) else [])
          ++ (if g.Alt ≠ [] then tag (lit "og:image:alt") g.Alt else [])) := by
  have hne := URL_IsValid_ne_nil g.URL h
  simp [entryBlock, h, hne]

/-! ## Claims -/

/-- C1: for every record `o`, `HTML o` is the concatenation, in this order, of the eleven
blocks: the `og:title` tag if `Title` is non-empty, the `og:type` tag if `Type` is non-empty,
the image block, the `og:url` tag if `URL.IsValid()`, the `og:audio`, `og:description`,
`og:determiner`, `og:locale` tags if their field is non-empty, one `og:locale:alternate` tag
per element of `LocaleAlternate` in list order, the `og:site_name` tag if `SiteName` is
non-empty, the `og:video` tag if `Video.IsValid()`; and a tag is the literal
`<meta property="`, the escaped property, `" content="`, the escaped content, `" />` and one
newline. -/
theorem C1_HTML_fixed_order (o : OpenGraph) :
    HTML o =
      (if o.Title ≠ [] then tag (lit "og:title") o.Title else [])
      ++ (if o.Type_ ≠ [] then tag (lit "og:type") o.Type_ else [])
      ++ imageBlock o
      ++ (if URL.IsValid o.URL = true then tag (lit "og:url") o.URL else [])
      ++ (if o.Audio ≠ [] then tag (lit "og:audio") o.Audio else [])
      ++ (if o.Description ≠ [] then tag (lit "og:description") o.Description else [])
      ++ (if o.Determiner ≠ [] then tag (lit "og:determiner") o.Determiner else [])
      ++ (if o.Locale ≠ [] then tag (lit "og:locale") o.Locale else [])
      ++ o.LocaleAlternate.flatMap (fun l => tag (lit "og:locale:alternate") l)
      ++ (if o.SiteName ≠ [] then tag (lit "og:site_name") o.SiteName else [])
      ++ (if URL.IsValid o.Video = true then tag (lit "og:video") o.Video else [])
    ∧ ∀ p c : GoString,
        tag p c = lit "<meta property=\"" ++ HTMLEscaper p ++ lit "\" content=\""
          ++ HTMLEscaper c ++ lit "\" />" ++ [10]
        ∧ ∀ b : GoString, meta b p c = b ++ tag p c := by
  refine ⟨?_, fun p c => ⟨rfl, fun b => meta_eq b p c⟩⟩
  rw [HTML_eq_blocks, titleTypeBlock_eq, trailingBlock_eq]
  simp only [List.append_assoc]

/-- C2: for every record `o`, with `n` the number of tags `HTML o` emits (the calls of
`meta`, whose tags make up the fragment), the fragment has exactly `n` characters `<`,
exactly `n` characters `>` and exactly `4 * n` characters `"`, and every `<` in it is the
first character of the literal `<meta property="`. -/
theorem C2_no_injection (o : OpenGraph) :
    HTML o = (metaCalls o).flatMap (fun pc => tag pc.1 pc.2)
    ∧ (HTML o).count 60 = (metaCalls o).length
    ∧ (HTML o).count 62 = (metaCalls o).length
    ∧ (HTML o).count 34 = 4 * (metaCalls o).length
    ∧ ∀ pre post : GoString, HTML o = pre ++ 60 :: post →
        lit "<meta property=\"" <+: 60 :: post := by
  obtain ⟨h1, h2, h3⟩ := count_renderCalls (metaCalls o)
  rw [HTML_eq_renderCalls]
  exact ⟨rfl, h1, h2, h3, lt_opens_tag (metaCalls o)⟩

/-- C3: for every string `s` the escaper turns each of `&`, `<`, `>`, `"`, `'` into its entity
(`&amp;`, `&lt;`, `&gt;`, `&#34;`, `&#39;`), what stands before and after being escaped on its
own; the result has no `<`, `>`, `"` or `'`, and every `&` in the result starts one of those
five entities. -/
theorem C3_escaper_entities (s : GoString) :
    (∀ a b : GoString, s = a ++ 38 :: b →
        HTMLEscaper s = HTMLEscaper a ++ lit "&amp;" ++ HTMLEscaper b)
    ∧ (∀ a b : GoString, s = a ++ 60 :: b →
        HTMLEscaper s = HTMLEscaper a ++ lit "&lt;" ++ HTMLEscaper b)
    ∧ (∀ a b : GoString, s = a ++ 62 :: b →
        HTMLEscaper s = HTMLEscaper a ++ lit "&gt;" ++ HTMLEscaper b)
    ∧ (∀ a b : GoString, s = a ++ 34 :: b →
        HTMLEscaper s = HTMLEscaper a ++ lit "&#34;" ++ HTMLEscaper b)
    ∧ (∀ a b : GoString, s = a ++ 39 :: b →
        HTMLEscaper s = HTMLEscaper a ++ lit "&#39;" ++ HTMLEscaper b)
    ∧ 60 ∉ HTMLEscaper s ∧ 62 ∉ HTMLEscaper s ∧ 34 ∉ HTMLEscaper s ∧ 39 ∉ HTMLEscaper s
    ∧ ∀ pre post : GoString, HTMLEscaper s = pre ++ 38 :: post →
        lit "&amp;" <+: 38 :: post ∨ lit "&lt;" <+: 38 :: post ∨ lit "&gt;" <+: 38 :: post
        ∨ lit "&#34;" <+: 38 :: post ∨ lit "&#39;" <+: 38 :: post := by
  refine ⟨?_, ?_, ?_, ?_, ?_, ?_, ?_, ?_, ?_, ?_⟩
  · rintro a b rfl
    simp [HTMLEscaper_append, HTMLEscaper_cons, escapeByte, htmlReplacement]
  · rintro a b rfl
    simp [HTMLEscaper_append, HTMLEscaper_cons, escapeByte, htmlReplacement]
  · rintro a b rfl
    simp [HTMLEscaper_append, HTMLEscaper_cons, escapeByte, htmlReplacement]
  · rintro a b rfl
    simp [HTMLEscaper_append, HTMLEscaper_cons, escapeByte, htmlReplacement]
  · rintro a b rfl
    simp [HTMLEscaper_append, HTMLEscaper_cons, escapeByte, htmlReplacement]
  · exact fun h => (mem_HTMLEscaper 60 s h).1 rfl
  · exact fun h => (mem_HTMLEscaper 62 s h).2.1 rfl
  · exact fun h => (mem_HTMLEscaper 34 s h).2.2.1 rfl
  · exact fun h => (mem_HTMLEscaper 39 s h).2.2.2 rfl
  · intro pre post h
    obtain ⟨e, he, hp⟩ :=
      ampersandsEscaped_split _ pre post (ampersandsEscaped_HTMLEscaper s) h
    have h38 : ∀ t : GoString, (38 :: t) <+: (38 :: post) ↔ t <+: post := fun t =>
      List.prefix_cons_inj 38
    simp only [entityTails, List.mem_cons, List.mem_singleton, List.not_mem_nil,
      or_false] at he
    have e1 : lit "&amp;" = 38 :: lit "amp;" := by decide
    have e2 : lit "&lt;" = 38 :: lit "lt;" := by decide
    have e3 : lit "&gt;" = 38 :: lit "gt;" := by decide
    have e4 : lit "&#34;" = 38 :: lit "#34;" := by decide
    have e5 : lit "&#39;" = 38 :: lit "#39;" := by decide
    rw [e1, e2, e3, e4, e5, h38, h38, h38, h38, h38]
    rcases he with rfl | rfl | rfl | rfl | rfl <;> simp [hp]

/-- C3, on the string `a<b & "c"'`: its escaped form, and the entity at the `&` that stands
at offset 1. -/
theorem C3_escaper_entities_witness :
    HTMLEscaper (lit "a<b & \"c\"'") = lit "a&lt;b &amp; &#34;c&#34;&#39;"
    ∧ (lit "&amp;" <+: 38 :: lit "lt;b &amp; &#34;c&#34;&#39;"
      ∨ lit "&lt;" <+: 38 :: lit "lt;b &amp; &#34;c&#34;&#39;"
      ∨ lit "&gt;" <+: 38 :: lit "lt;b &amp; &#34;c&#34;&#39;"
      ∨ lit "&#34;" <+: 38 :: lit "lt;b &amp; &#34;c&#34;&#39;"
      ∨ lit "&#39;" <+: 38 :: lit "lt;b &amp; &#34;c&#34;&#39;") :=
  ⟨by decide,
   (C3_escaper_entities (lit "a<b & \"c\"'")).2.2.2.2.2.2.2.2.2 (lit "a")
     (lit "lt;b &amp; &#34;c&#34;&#39;") (by decide)⟩

/-- C4 as stated fails: a `Title` that is the single NUL byte is written as U+FFFD (bytes
`EF BF BD`) in the content attribute of the `og:title` tag, and decoding the entities of
that content does not give the NUL byte back. -/
theorem C4_roundtrip_counterexample :
    HTML { Title := [0] }
      = lit "<meta property=\"og:title\" content=\"" ++ [239, 191, 189] ++ lit "\" />\n"
    ∧ HTMLEscaper [0] = [239, 191, 189]
    ∧ unescape (HTMLEscaper [0]) = [239, 191, 189]
    ∧ unescape (HTMLEscaper [0]) ≠ [0] := by
  decide

/-- C4, amended: for every record whose `Title` is non-empty and has no NUL byte, the
fragment starts with the `og:title` tag, whose content attribute is the escaped `Title`;
that content has no `<`, no `>` and no `"`, and decoding its entities gives `Title` back
exactly. -/
theorem C4_roundtrip (o : OpenGraph) (hne : o.Title ≠ []) (h0 : 0 ∉ o.Title) :
    HTML o = lit "<meta property=\"og:title\" content=\"" ++ HTMLEscaper o.Title
        ++ lit "\" />\n" ++ HTML { o with Title := [] }
    ∧ 60 ∉ HTMLEscaper o.Title ∧ 62 ∉ HTMLEscaper o.Title ∧ 34 ∉ HTMLEscaper o.Title
    ∧ unescape (HTMLEscaper o.Title) = o.Title := by
  refine ⟨?_, fun h => (mem_HTMLEscaper 60 _ h).1 rfl, fun h => (mem_HTMLEscaper 62 _ h).2.1 rfl,
    fun h => (mem_HTMLEscaper 34 _ h).2.2.1 rfl, unescape_HTMLEscaper o.Title h0⟩
  rw [HTML_title o hne]
  have e : HTMLEscaper (lit "og:title") = lit "og:title" := by decide
  rw [tag, e]
  simp [lit]

/-- C4 on the `Title` `<script>alert(1)</script>`. -/
theorem C4_roundtrip_witness :
    HTML { Title := lit "<script>alert(1)</script>" }
      = lit "<meta property=\"og:title\" content=\""
        ++ HTMLEscaper (lit "<script>alert(1)</script>")
        ++ lit "\" />\n" ++ HTML {}
    ∧ 60 ∉ HTMLEscaper (lit "<script>alert(1)</script>")
    ∧ 62 ∉ HTMLEscaper (lit "<script>alert(1)</script>")
    ∧ 34 ∉ HTMLEscaper (lit "<script>alert(1)</script>")
    ∧ unescape (HTMLEscaper (lit "<script>alert(1)</script>"))
      = lit "<script>alert(1)</script>" :=
  C4_roundtrip { Title := lit "<script>alert(1)</script>" } (by decide) (by decide)

/-- C5 as stated fails for an `Images` slice that is present with zero elements: with a
scheme-valid `Image` the claim asks for the `og:type` fallback tag, while the code writes
nothing at all (the fallback is guarded by `o.Images == nil`). -/
theorem C5_fallback_counterexample :
    URL.IsValid (lit "http://a.example/i.png") = true
    ∧ imageBlock { Image := lit "http://a.example/i.png", Images := some [] } = []
    ∧ imageBlock { Image := lit "http://a.example/i.png", Images := some [] }
        ≠ tag (lit "og:type") (lit "http://a.example/i.png")
    ∧ HTML { Image := lit "http://a.example/i.png", Images := some [] } = [] := by
  decide

/-- C5, amended: `Image.IsValid()` holds exactly when `Image` starts with `http://` or
`https://`.  For a record whose `Images` is nil the image block of `HTML o` is the tag
`og:type` (not `og:image`) with content `Image` when `Image.IsValid()`, and empty otherwise;
with `Type` non-empty too, the fragment has the two `og:type` tags one after the other.  For a
record whose `Images` is present with zero elements the image block is empty, whatever
`Image` is. -/
theorem C5_fallback (o : OpenGraph) :
    (URL.IsValid o.Image = true ↔ (lit "http://" <+: o.Image ∨ lit "https://" <+: o.Image))
    ∧ HTML o = titleTypeBlock o ++ imageBlock o ++ trailingBlock o
    ∧ (o.Images = none → imageBlock o =
        if URL.IsValid o.Image = true then
          lit "<meta property=\"og:type\" content=\"" ++ HTMLEscaper o.Image ++ lit "\" />\n"
        else [])
    ∧ (o.Images = none → o.Type_ ≠ [] → URL.IsValid o.Image = true →
        HTML o = (if o.Title ≠ [] then tag (lit "og:title") o.Title else [])
          ++ tag (lit "og:type") o.Type_ ++ tag (lit "og:type") o.Image ++ trailingBlock o)
    ∧ (o.Images = some [] → imageBlock o = []) := by
  have e : ∀ c : GoString, tag (lit "og:type") c
      = lit "<meta property=\"og:type\" content=\"" ++ HTMLEscaper c ++ lit "\" />\n" := by
    intro c
    have e1 : HTMLEscaper (lit "og:type") = lit "og:type" := by decide
    rw [tag, e1]
    simp [lit]
  refine ⟨URL_IsValid_iff o.Image, HTML_eq_blocks o, ?_, ?_, ?_⟩
  · intro h
    rw [imageBlock_none o h]
    split
    · exact e o.Image
    · rfl
  · intro h ht hv
    rw [HTML_eq_blocks, imageBlock_none o h, titleTypeBlock_eq]
    simp [ht, hv]
  · intro h
    rw [imageBlock_some o [] h]
    rfl

/-- C5 on a record with nil `Images`, `Type` `website` and a scheme-valid `Image`. -/
theorem C5_fallback_witness :
    imageBlock { Type_ := lit "website", Image := lit "https://a.example/i.png" }
      = lit "<meta property=\"og:type\" content=\"https://a.example/i.png\" />\n"
    ∧ HTML { Type_ := lit "website", Image := lit "https://a.example/i.png" }
      = lit "<meta property=\"og:type\" content=\"website\" />\n"
        ++ lit "<meta property=\"og:type\" content=\"https://a.example/i.png\" />\n" := by
  have h := C5_fallback { Type_ := lit "website", Image := lit "https://a.example/i.png" }
  refine ⟨(h.2.2.1 rfl).trans (by decide), (h.2.2.2.1 rfl (by decide) (by decide)).trans ?_⟩
  decide

/-- C6: for every record with a non-empty `Images` list, the image block of `HTML o` is the
concatenation, in list order, of the per-entry blocks of the elements: nothing for an entry
whose `URL` is not scheme-valid, otherwise the tags `og:image` (if `URL` is non-empty),
`og:image:secure_url` (if `SecureURL` is non-empty, no https check), `og:image:type` (if
`Type` is non-empty), `og:image:width` (decimal, if `Width > 0`), `og:image:height` (decimal,
if `Height > 0`), `og:image:alt` (if `Alt` is non-empty). -/
theorem C6_image_list (o : OpenGraph) (imgs : List Image) (h : o.Images = some imgs)
    (_hne : imgs ≠ []) :
    HTML o = titleTypeBlock o ++ imageBlock o ++ trailingBlock o
    ∧ imageBlock o = imgs.flatMap (fun g =>
        if URL.IsValid g.URL = true then
          (if g.URL ≠ [] then tag (lit "og:image") g.URL else [])
          ++ (if g.SecureURL ≠ [] then tag (lit "og:image:secure_url") g.SecureURL else [])
          ++ (if g.Type_ ≠ [] then tag (lit "og:image:type") g.Type_ else [])
          ++ (if g.Width > 0 then tag (lit "og:image:width") (Itoa g.Width) else [])
          ++ (if g.Height > 0 then tag (lit "og:image:height") (Itoa g.Height) else [])
          ++ (if g.Alt ≠ [] then tag (lit "og:image:alt") g.Alt else [])
        else [])
    ∧ ∀ g : Image, imagesBody [] g = entryBlock g := by
  refine ⟨HTML_eq_blocks o, ?_, imagesBody_nil_eq⟩
  rw [imageBlock_some o imgs h]
  rfl

/-- C6 on a list of two entries, the first with all six fields set and an `http` secure URL,
the second not scheme-valid. -/
theorem C6_image_list_witness :
    imageBlock { Image := lit "http://a.example/old.png",
                 Images := some [sampleImage, skippedImage] } = sampleImageTags := by
  have h := C6_image_list
    { Image := lit "http://a.example/old.png", Images := some [sampleImage, skippedImage] }
    [sampleImage, skippedImage] rfl (by decide)
  exact h.2.1.trans (by rfl)

/-- C7: for every two records `o1` and `o2` that have the same non-empty `Images` list and
agree on every field except `Image`, `HTML o1 = HTML o2`; the image block of both is made of
the per-entry blocks of the list only, with no tag that comes from `Image`. -/
theorem C7_image_precedence (o1 o2 : OpenGraph) (imgs : List Image) (_hne : imgs ≠ [])
    (h1 : o1.Images = some imgs) (h2 : o2 = { o1 with Image := o2.Image }) :
    HTML o1 = HTML o2
    ∧ imageBlock o1 = imgs.flatMap entryBlock
    ∧ imageBlock o2 = imgs.flatMap entryBlock := by
  obtain ⟨i, hi⟩ : ∃ i : URL, o2 = { o1 with Image := i } := ⟨o2.Image, h2⟩
  subst hi
  have hb1 := imageBlock_some o1 imgs h1
  have hb2 := imageBlock_some { o1 with Image := i } imgs h1
  refine ⟨?_, hb1, hb2⟩
  rw [HTML_eq_blocks o1, HTML_eq_blocks { o1 with Image := i }, hb1, hb2]
  rfl

/-- C7 on two records that differ in `Image` only, one having a scheme-valid `Image`. -/
theorem C7_image_precedence_witness :
    HTML { Title := lit "T", Type_ := lit "website", Image := lit "http://a.example/old.png",
           Images := some [sampleImage] }
      = HTML { Title := lit "T", Type_ := lit "website", Images := some [sampleImage] } :=
  (C7_image_precedence
    { Title := lit "T", Type_ := lit "website", Image := lit "http://a.example/old.png",
      Images := some [sampleImage] }
    { Title := lit "T", Type_ := lit "website", Images := some [sampleImage] }
    [sampleImage] (by decide) rfl rfl).1

/-- C8: an `Images` entry `e` whose `URL` is not scheme-valid contributes no tag, whatever its
other fields are: for every record `o` and lists `xs`, `ys` with `xs ++ ys` non-empty, the
record with `Images = xs ++ [e] ++ ys` renders as the one with `Images = xs ++ ys`; and with
`Images = [e]` alone the image block is empty, so the fragment is that of the same record with
`Image` blank and `Images` empty (nil, or present with zero elements). -/
theorem C8_image_sub_skip (o : OpenGraph) (e : Image) (he : URL.IsValid e.URL = false) :
    (∀ xs ys : List Image, xs ++ ys ≠ [] →
        HTML { o with Images := some (xs ++ [e] ++ ys) }
          = HTML { o with Images := some (xs ++ ys) })
    ∧ imageBlock { o with Images := some [e] } = []
    ∧ HTML { o with Images := some [e] } = HTML { o with Image := [], Images := none }
    ∧ HTML { o with Images := some [e] } = HTML { o with Image := [], Images := some [] } := by
  have hnone : imageBlock { o with Image := [], Images := none } = [] := by
    rw [imageBlock_none _ rfl]
    rfl
  have hnil : imageBlock { o with Image := [], Images := some [] } = [] := by
    rw [imageBlock_some _ [] rfl]
    rfl
  have hone : imageBlock { o with Images := some [e] } = [] := by
    rw [imageBlock_some _ [e] rfl]
    simp [entryBlock_of_not_valid e he]
  refine ⟨fun xs ys _ => ?_, hone, ?_, ?_⟩
  · rw [HTML_eq_blocks, HTML_eq_blocks, imageBlock_some _ (xs ++ [e] ++ ys) rfl,
      imageBlock_some _ (xs ++ ys) rfl]
    simp only [List.flatMap_append, List.flatMap_cons, List.flatMap_nil,
      entryBlock_of_not_valid e he, List.append_nil]
    rfl
  · rw [HTML_eq_blocks, HTML_eq_blocks, hone, hnone]
    rfl
  · rw [HTML_eq_blocks, HTML_eq_blocks, hone, hnil]
    rfl

/-- C8 on the entry whose `URL` is `not-a-url` and whose other fields are all set. -/
theorem C8_image_sub_skip_witness :
    URL.IsValid skippedImage.URL = false
    ∧ HTML { Title := lit "T", Image := lit "http://a.example/old.png",
             Images := some ([sampleImage] ++ [skippedImage] ++ [sampleImage]) }
      = HTML { Title := lit "T", Image := lit "http://a.example/old.png",
               Images := some ([sampleImage] ++ [sampleImage]) }
    ∧ HTML { Title := lit "T", Image := lit "http://a.example/old.png",
             Images := some [skippedImage] }
      = HTML { Title := lit "T" } :=
  ⟨by decide,
   (C8_image_sub_skip { Title := lit "T", Image := lit "http://a.example/old.png" }
      skippedImage (by decide)).1 [sampleImage] [sampleImage] (by decide),
   (C8_image_sub_skip { Title := lit "T", Image := lit "http://a.example/old.png" }
      skippedImage (by decide)).2.2.1⟩

/-- C9: for every record `o`, `URL.IsValid()` holds exactly when `URL` starts with `http://`
or `https://`; the number of occurrences of `<meta property="og:url" content="` in `HTML o` is
one if `URL.IsValid()` and zero otherwise, whatever the other fields are; the one tag stands
right after the image block and its content is the escaped `URL`.  `ftp://example.com` gives
no `og:url` tag, `https://example.com` exactly one, with content `https://example.com`. -/
theorem C9_url_gating (o : OpenGraph) :
    (URL.IsValid o.URL = true ↔ (lit "http://" <+: o.URL ∨ lit "https://" <+: o.URL))
    ∧ countOcc (lit "<meta property=\"og:url\" content=\"") (HTML o)
        = (if URL.IsValid o.URL = true then 1 else 0)
    ∧ (URL.IsValid o.URL = true →
        HTML o = titleTypeBlock o ++ imageBlock o
          ++ (lit "<meta property=\"og:url\" content=\"" ++ HTMLEscaper o.URL
              ++ lit "\" />\n")
          ++ trailingBlock { o with URL := [] })
    ∧ (o.URL = lit "ftp://example.com" →
        countOcc (lit "<meta property=\"og:url\" content=\"") (HTML o) = 0)
    ∧ (o.URL = lit "https://example.com" →
        countOcc (lit "<meta property=\"og:url\" content=\"") (HTML o) = 1
        ∧ HTMLEscaper o.URL = lit "https://example.com") := by
  have hpat : lit "<meta property=\"og:url\" content=\"" = tagOpen (lit "og:url") := by decide
  have hcount : countOcc (lit "<meta property=\"og:url\" content=\"") (HTML o)
      = (if URL.IsValid o.URL = true then 1 else 0) := by
    rw [hpat, countOcc_HTML (lit "og:url") (by decide) o, countP_url_metaCalls]
  refine ⟨URL_IsValid_iff o.URL, hcount, ?_, ?_, ?_⟩
  · intro h
    have e : HTMLEscaper (lit "og:url") = lit "og:url" := by decide
    rw [HTML_eq_blocks, trailingBlock_url o h, tag, e]
    simp [lit]
  · intro h
    have hv : URL.IsValid o.URL = false := by rw [h]; decide
    rw [hcount, hv]
    rfl
  · intro h
    have hv : URL.IsValid o.URL = true := by rw [h]; decide
    rw [hcount, hv, h]
    exact ⟨rfl, by decide⟩

/-- C9 on two records that differ in `URL` only, `https://example.com` and
`ftp://example.com`, with `og:url`-like text in `Title`. -/
theorem C9_url_gating_witness :
    HTML { Title := lit "<meta property=\"og:url\" content=\"", URL := lit "https://example.com" }
      = titleTypeBlock { Title := lit "<meta property=\"og:url\" content=\"" }
        ++ lit "<meta property=\"og:url\" content=\"https://example.com\" />\n"
    ∧ countOcc (lit "<meta property=\"og:url\" content=\"")
        (HTML { Title := lit "<meta property=\"og:url\" content=\"",
                URL := lit "ftp://example.com" }) = 0 := by
  have h1 := C9_url_gating
    { Title := lit "<meta property=\"og:url\" content=\"", URL := lit "https://example.com" }
  have h2 := C9_url_gating
    { Title := lit "<meta property=\"og:url\" content=\"", URL := lit "ftp://example.com" }
  exact ⟨(h1.2.2.1 (by decide)).trans (by rfl), h2.2.2.2.1 rfl⟩

/-- C10: for every `Images` entry `g` with a scheme-valid `URL`, the per-entry block has one
`og:image:width` tag if `g.Width > 0` and none otherwise (zero and negative values suppress
it); when present the tag stands after the `og:image`, `og:image:secure_url` and
`og:image:type` tags and its content is the decimal string of `g.Width`: digits only (no
sign), no leading zero, of value `g.Width`; `Width = 1` gives the content `1`.  The same holds
for `Height` and `og:image:height`, which comes right after the width tag. -/
theorem C10_dimension_gating (g : Image) (hv : URL.IsValid g.URL = true) :
    countOcc (lit "<meta property=\"og:image:width\" content=\"") (imagesBody [] g)
      = (if g.Width > 0 then 1 else 0)
    ∧ countOcc (lit "<meta property=\"og:image:height\" content=\"") (imagesBody [] g)
      = (if g.Height > 0 then 1 else 0)
    ∧ imagesBody [] g =
        (if g.URL ≠ [] then tag (lit "og:image") g.URL else [])
        ++ (if g.SecureURL ≠ [] then tag (lit "og:image:secure_url") g.SecureURL else [])
        ++ (if g.Type_ ≠ [] then tag (lit "og:image:type") g.Type_ else [])
        ++ (if g.Width > 0 then
              lit "<meta property=\"og:image:width\" content=\"" ++ Itoa g.Width
                ++ lit "\" />\n"
            else [])
        ++ (if g.Height > 0 then
              lit "<meta property=\"og:image:height\" content=\"" ++ Itoa g.Height
                ++ lit "\" />\n"
            else [])
        ++ (if g.Alt ≠ [] then tag (lit "og:image:alt") g.Alt else [])
    ∧ (g.Width > 0 → Itoa g.Width ≠ [] ∧ (∀ d ∈ Itoa g.Width, 48 ≤ d ∧ d ≤ 57)
        ∧ (Itoa g.Width).head? ≠ some 48 ∧ (decimalValue (Itoa g.Width) : Int) = g.Width)
    ∧ (g.Height > 0 → Itoa g.Height ≠ [] ∧ (∀ d ∈ Itoa g.Height, 48 ≤ d ∧ d ≤ 57)
        ∧ (Itoa g.Height).head? ≠ some 48 ∧ (decimalValue (Itoa g.Height) : Int) = g.Height)
    ∧ (g.Width = 1 → Itoa g.Width = lit "1") ∧ (g.Height = 1 → Itoa g.Height = lit "1") := by
  have hw : lit "<meta property=\"og:image:width\" content=\""
      = tagOpen (lit "og:image:width") := by decide
  have hh : lit "<meta property=\"og:image:height\" content=\""
      = tagOpen (lit "og:image:height") := by decide
  refine ⟨?_, ?_, ?_, Itoa_pos g.Width, Itoa_pos g.Height, ?_, ?_⟩
  · rw [imagesBody_eq, List.nil_append, hw, countOcc_renderCalls _ (by decide),
      countP_width_imageCalls g hv]
  · rw [imagesBody_eq, List.nil_append, hh, countOcc_renderCalls _ (by decide),
      countP_height_imageCalls g hv]
  · rw [imagesBody_nil_eq, entryBlock, if_pos hv, hw, hh]
    congr 1
    congr 1
    · congr 1
      split
      · next h => exact tag_dimension _ (by decide) g.Width h
      · rfl
    · split
      · next h => exact tag_dimension _ (by decide) g.Height h
      · rfl
  · intro h
    rw [h]
    decide
  · intro h
    rw [h]
    decide

/-- C10 on entries of widths 0, -5 and 1 and heights 480, 0 and -1. -/
theorem C10_dimension_gating_witness :
    imagesBody [] { URL := lit "http://a", Width := 0, Height := 480 }
      = lit "<meta property=\"og:image\" content=\"http://a\" />\n"
        ++ lit "<meta property=\"og:image:height\" content=\"480\" />\n"
    ∧ imagesBody [] { URL := lit "http://a", Width := -5, Height := 0 }
      = lit "<meta property=\"og:image\" content=\"http://a\" />\n"
    ∧ imagesBody [] { URL := lit "http://a", Width := 1, Height := -1 }
      = lit "<meta property=\"og:image\" content=\"http://a\" />\n"
        ++ lit "<meta property=\"og:image:width\" content=\"1\" />\n" := by
  have h1 := C10_dimension_gating { URL := lit "http://a", Width := 0, Height := 480 }
    (by decide)
  have h2 := C10_dimension_gating { URL := lit "http://a", Width := -5, Height := 0 }
    (by decide)
  have h3 := C10_dimension_gating { URL := lit "http://a", Width := 1, Height := -1 }
    (by decide)
  exact ⟨h1.2.2.1.trans (by rfl), h2.2.2.1.trans (by rfl), h3.2.2.1.trans (by rfl)⟩

/-- C11: for every record `o`, `HTML o` has exactly `len(LocaleAlternate)` occurrences of
`<meta property="og:locale:alternate" content="`; the tags are one per list element, next to
each other and in list order, between the text of the steps before them and the text of the
`og:site_name` and `og:video` steps, the tag of an element having the escaped element as its
content; every element gets its tag, an empty one too, and equal elements are not merged. -/
theorem C11_locale_alternate_fan_out (o : OpenGraph) :
    countOcc (lit "<meta property=\"og:locale:alternate\" content=\"") (HTML o)
      = o.LocaleAlternate.length
    ∧ HTML o = HTML { o with LocaleAlternate := [], SiteName := [], Video := [] }
        ++ o.LocaleAlternate.flatMap (fun l =>
            lit "<meta property=\"og:locale:alternate\" content=\"" ++ HTMLEscaper l
              ++ lit "\" />\n")
        ++ HTML { SiteName := o.SiteName, Video := o.Video }
    ∧ countOcc (lit "<meta property=\"og:locale:alternate\" content=\"")
        (HTML { o with LocaleAlternate := [], SiteName := [], Video := [] }) = 0
    ∧ countOcc (lit "<meta property=\"og:locale:alternate\" content=\"")
        (HTML { SiteName := o.SiteName, Video := o.Video }) = 0 := by
  have hpat : lit "<meta property=\"og:locale:alternate\" content=\""
      = tagOpen (lit "og:locale:alternate") := by decide
  have hcount : ∀ r : OpenGraph,
      countOcc (lit "<meta property=\"og:locale:alternate\" content=\"") (HTML r)
        = r.LocaleAlternate.length := by
    intro r
    rw [hpat, countOcc_HTML _ (by decide), countP_metaCalls,
      countP_imageCalls_zero _ _ (by decide)]
    simp [lit]
  have htag : ∀ l : GoString, tag (lit "og:locale:alternate") l
      = lit "<meta property=\"og:locale:alternate\" content=\"" ++ HTMLEscaper l
        ++ lit "\" />\n" := by
    intro l
    rw [tag_of_propertyName _ _ (by decide), hpat]
  refine ⟨hcount o, ?_, hcount _, hcount _⟩
  rw [HTML_eq_tags o, HTML_eq_tags { o with LocaleAlternate := [], SiteName := [], Video := [] },
    HTML_eq_tags { SiteName := o.SiteName, Video := o.Video }]
  simp [htag, URL_IsValid_nil, imageBlock]

/-- C11 on the list `fr_FR`, `de_DE`, and on a list with an empty and a repeated element. -/
theorem C11_locale_alternate_fan_out_witness :
    HTML { LocaleAlternate := [lit "fr_FR", lit "de_DE"] }
      = lit "<meta property=\"og:locale:alternate\" content=\"fr_FR\" />\n"
        ++ lit "<meta property=\"og:locale:alternate\" content=\"de_DE\" />\n"
    ∧ countOcc (lit "<meta property=\"og:locale:alternate\" content=\"")
        (HTML { LocaleAlternate := [lit "fr_FR", lit "de_DE"] }) = 2
    ∧ countOcc (lit "<meta property=\"og:locale:alternate\" content=\"")
        (HTML { Locale := lit "en_US", LocaleAlternate := [[], lit "fr_FR", lit "fr_FR"] })
        = 3 := by
  have h1 := C11_locale_alternate_fan_out { LocaleAlternate := [lit "fr_FR", lit "de_DE"] }
  have h2 := C11_locale_alternate_fan_out
    { Locale := lit "en_US", LocaleAlternate := [[], lit "fr_FR", lit "fr_FR"] }
  exact ⟨h1.2.1.trans (by rfl), h1.1, h2.1⟩

/-- C12: the record whose every field has its zero value (empty strings, nil `Images`, empty
`LocaleAlternate`) renders as the empty fragment, and so does the record whose `Images` is
present with zero elements. -/
theorem C12_emptiness :
    HTML {} = [] ∧ HTML { Images := some [] } = []
    ∧ ({} : OpenGraph) =
      { Title := [], Type_ := [], Image := [], Images := none, URL := [], Audio := [],
        Description := [], Determiner := [], Locale := [], LocaleAlternate := [],
        SiteName := [], Video := [] } := by
  decide

/-- C13: for every record with `Title`, `Description` and `SiteName` all non-empty, whatever
the other fields are, the fragment is the `og:title` tag (nothing stands before it), then the
text `b` of the steps from `og:type` to `og:audio`, then the `og:description` tag, then the
text `c` of the steps from `og:determiner` to `og:locale:alternate`, then the `og:site_name`
tag, then the text `d` of the `og:video` step; no `og:description` tag and no `og:site_name`
tag occurs before that `og:description` tag, and no `og:site_name` tag before that
`og:site_name` tag. -/
theorem C13_order_invariant (o : OpenGraph) (ht : o.Title ≠ []) (hd : o.Description ≠ [])
    (hs : o.SiteName ≠ []) :
    HTML o = [] ++ tag (lit "og:title") o.Title
      ++ ((if o.Type_ ≠ [] then tag (lit "og:type") o.Type_ else [])
          ++ imageBlock o
          ++ (if URL.IsValid o.URL = true then tag (lit "og:url") o.URL else [])
          ++ (if o.Audio ≠ [] then tag (lit "og:audio") o.Audio else []))
      ++ tag (lit "og:description") o.Description
      ++ ((if o.Determiner ≠ [] then tag (lit "og:determiner") o.Determiner else [])
          ++ (if o.Locale ≠ [] then tag (lit "og:locale") o.Locale else [])
          ++ o.LocaleAlternate.flatMap (fun l => tag (lit "og:locale:alternate") l))
      ++ tag (lit "og:site_name") o.SiteName
      ++ (if URL.IsValid o.Video = true then tag (lit "og:video") o.Video else [])
    ∧ countOcc (lit "<meta property=\"og:description\" content=\"")
        (tag (lit "og:title") o.Title
          ++ ((if o.Type_ ≠ [] then tag (lit "og:type") o.Type_ else [])
              ++ imageBlock o
              ++ (if URL.IsValid o.URL = true then tag (lit "og:url") o.URL else [])
              ++ (if o.Audio ≠ [] then tag (lit "og:audio") o.Audio else []))) = 0
    ∧ countOcc (lit "<meta property=\"og:site_name\" content=\"")
        (tag (lit "og:title") o.Title
          ++ ((if o.Type_ ≠ [] then tag (lit "og:type") o.Type_ else [])
              ++ imageBlock o
              ++ (if URL.IsValid o.URL = true then tag (lit "og:url") o.URL else [])
              ++ (if o.Audio ≠ [] then tag (lit "og:audio") o.Audio else []))) = 0
    ∧ countOcc (lit "<meta property=\"og:site_name\" content=\"")
        (tag (lit "og:title") o.Title
          ++ ((if o.Type_ ≠ [] then tag (lit "og:type") o.Type_ else [])
              ++ imageBlock o
              ++ (if URL.IsValid o.URL = true then tag (lit "og:url") o.URL else [])
              ++ (if o.Audio ≠ [] then tag (lit "og:audio") o.Audio else []))
          ++ tag (lit "og:description") o.Description
          ++ ((if o.Determiner ≠ [] then tag (lit "og:determiner") o.Determiner else [])
              ++ (if o.Locale ≠ [] then tag (lit "og:locale") o.Locale else [])
              ++ o.LocaleAlternate.flatMap (fun l => tag (lit "og:locale:alternate") l))) = 0
    ∧ (∀ c : GoString, tag (lit "og:title") c
        = lit "<meta property=\"og:title\" content=\"" ++ HTMLEscaper c ++ lit "\" />\n")
    ∧ (∀ c : GoString, tag (lit "og:description") c
        = lit "<meta property=\"og:description\" content=\"" ++ HTMLEscaper c
          ++ lit "\" />\n")
    ∧ (∀ c : GoString, tag (lit "og:site_name") c
        = lit "<meta property=\"og:site_name\" content=\"" ++ HTMLEscaper c
          ++ lit "\" />\n") := by
  have hdesc : lit "<meta property=\"og:description\" content=\""
      = tagOpen (lit "og:description") := by decide
  have hsite : lit "<meta property=\"og:site_name\" content=\""
      = tagOpen (lit "og:site_name") := by decide
  have htitle : lit "<meta property=\"og:title\" content=\""
      = tagOpen (lit "og:title") := by decide
  have h1 : tag (lit "og:title") o.Title
      ++ ((if o.Type_ ≠ [] then tag (lit "og:type") o.Type_ else [])
          ++ imageBlock o
          ++ (if URL.IsValid o.URL = true then tag (lit "og:url") o.URL else [])
          ++ (if o.Audio ≠ [] then tag (lit "og:audio") o.Audio else []))
      = HTML { o with Description := [], Determiner := [], Locale := [],
                      LocaleAlternate := [], SiteName := [], Video := [] } := by
    rw [HTML_eq_tags]
    simp [ht, URL_IsValid_nil, imageBlock]
  have h2 : tag (lit "og:title") o.Title
      ++ ((if o.Type_ ≠ [] then tag (lit "og:type") o.Type_ else [])
          ++ imageBlock o
          ++ (if URL.IsValid o.URL = true then tag (lit "og:url") o.URL else [])
          ++ (if o.Audio ≠ [] then tag (lit "og:audio") o.Audio else []))
      ++ tag (lit "og:description") o.Description
      ++ ((if o.Determiner ≠ [] then tag (lit "og:determiner") o.Determiner else [])
          ++ (if o.Locale ≠ [] then tag (lit "og:locale") o.Locale else [])
          ++ o.LocaleAlternate.flatMap (fun l => tag (lit "og:locale:alternate") l))
      = HTML { o with SiteName := [], Video := [] } := by
    rw [HTML_eq_tags]
    simp [ht, hd, URL_IsValid_nil, imageBlock]
  refine ⟨?_, ?_, ?_, ?_, ?_, ?_, ?_⟩
  · rw [HTML_eq_tags]
    simp [ht, hd, hs]
  · rw [h1, hdesc, countOcc_HTML _ (by decide), countP_metaCalls,
      countP_imageCalls_zero _ _ (by decide)]
    simp [lit]
  · rw [h1, hsite, countOcc_HTML _ (by decide), countP_metaCalls,
      countP_imageCalls_zero _ _ (by decide)]
    simp [lit]
  · rw [h2, hsite, countOcc_HTML _ (by decide), countP_metaCalls,
      countP_imageCalls_zero _ _ (by decide)]
    simp [lit]
  · intro c
    rw [tag_of_propertyName _ _ (by decide), htitle]
  · intro c
    rw [tag_of_propertyName _ _ (by decide), hdesc]
  · intro c
    rw [tag_of_propertyName _ _ (by decide), hsite]

/-- C13 on the record with `Title` `T`, `Description` `D` and `SiteName` `S`. -/
theorem C13_order_invariant_witness :
    HTML { Title := lit "T", Description := lit "D", SiteName := lit "S" }
      = lit "<meta property=\"og:title\" content=\"T\" />\n"
        ++ lit "<meta property=\"og:description\" content=\"D\" />\n"
        ++ lit "<meta property=\"og:site_name\" content=\"S\" />\n" :=
  (C13_order_invariant { Title := lit "T", Description := lit "D", SiteName := lit "S" }
    (by decide) (by decide) (by decide)).1.trans (by rfl)

/-- C14: for every string `s`, `URL(s).IsValid()` holds exactly when `s` starts with `http://`
or `https://`, and `SecureURL(s).IsValid()` exactly when `s` starts with `https://`; the match
is case-sensitive and nothing is trimmed (`HTTP://x` and ` http://x` are invalid), and the
empty string is invalid for both. -/
theorem C14_validity_predicates (s : GoString) :
    (URL.IsValid s = true ↔ (lit "http://" <+: s ∨ lit "https://" <+: s))
    ∧ (SecureURL.IsValid s = true ↔ lit "https://" <+: s)
    ∧ URL.IsValid (lit "HTTP://x") = false ∧ URL.IsValid (lit " http://x") = false
    ∧ URL.IsValid (lit "Https://x") = false
    ∧ SecureURL.IsValid (lit "HTTPS://x") = false ∧ SecureURL.IsValid (lit " https://x") = false
    ∧ URL.IsValid [] = false ∧ SecureURL.IsValid [] = false := by
  refine ⟨URL_IsValid_iff s, ?_, ?_⟩
  · simp [SecureURL.IsValid, HasPrefix_iff]
  · decide

/-- C15: for every record with a non-empty `Determiner` and a non-empty `Locale`, whatever
these texts are (no constant is looked up), `HTML o` has the `og:determiner` tag and right
after it the `og:locale` tag, once each, their contents being the two values passed through
the escaper; a value with none of `&` `<` `>` `"` `'` NUL is its own escaped form, so it is
written verbatim. -/
theorem C15_open_enumerations (o : OpenGraph) (hd : o.Determiner ≠ []) (hl : o.Locale ≠ []) :
    HTML o = HTML { o with Determiner := [], Locale := [], LocaleAlternate := [],
                           SiteName := [], Video := [] }
      ++ (lit "<meta property=\"og:determiner\" content=\"" ++ HTMLEscaper o.Determiner
          ++ lit "\" />\n")
      ++ (lit "<meta property=\"og:locale\" content=\"" ++ HTMLEscaper o.Locale
          ++ lit "\" />\n")
      ++ HTML { LocaleAlternate := o.LocaleAlternate, SiteName := o.SiteName,
                Video := o.Video }
    ∧ countOcc (lit "<meta property=\"og:determiner\" content=\"") (HTML o) = 1
    ∧ countOcc (lit "<meta property=\"og:locale\" content=\"") (HTML o) = 1
    ∧ ((∀ c ∈ o.Determiner, c ≠ 38 ∧ c ≠ 60 ∧ c ≠ 62 ∧ c ≠ 34 ∧ c ≠ 39 ∧ c ≠ 0) →
        HTMLEscaper o.Determiner = o.Determiner)
    ∧ ((∀ c ∈ o.Locale, c ≠ 38 ∧ c ≠ 60 ∧ c ≠ 62 ∧ c ≠ 34 ∧ c ≠ 39 ∧ c ≠ 0) →
        HTMLEscaper o.Locale = o.Locale) := by
  have hdet : lit "<meta property=\"og:determiner\" content=\""
      = tagOpen (lit "og:determiner") := by decide
  have hloc : lit "<meta property=\"og:locale\" content=\""
      = tagOpen (lit "og:locale") := by decide
  have t1 : ∀ c : GoString, tag (lit "og:determiner") c
      = lit "<meta property=\"og:determiner\" content=\"" ++ HTMLEscaper c
        ++ lit "\" />\n" := by
    intro c
    rw [tag_of_propertyName _ _ (by decide), hdet]
  have t2 : ∀ c : GoString, tag (lit "og:locale") c
      = lit "<meta property=\"og:locale\" content=\"" ++ HTMLEscaper c
        ++ lit "\" />\n" := by
    intro c
    rw [tag_of_propertyName _ _ (by decide), hloc]
  refine ⟨?_, ?_, ?_, HTMLEscaper_of_no_special _, HTMLEscaper_of_no_special _⟩
  · rw [HTML_eq_tags o,
      HTML_eq_tags { o with Determiner := [], Locale := [], LocaleAlternate := [],
                            SiteName := [], Video := [] },
      HTML_eq_tags { LocaleAlternate := o.LocaleAlternate, SiteName := o.SiteName,
                     Video := o.Video }]
    simp [hd, hl, t1, t2, URL_IsValid_nil, imageBlock]
  · rw [hdet, countOcc_HTML _ (by decide), countP_metaCalls,
      countP_imageCalls_zero _ _ (by decide)]
    simp [lit]
    simpa [lit] using hd
  · rw [hloc, countOcc_HTML _ (by decide), countP_metaCalls,
      countP_imageCalls_zero _ _ (by decide)]
    simp [lit]
    simpa [lit] using hl

/-- C15 on a determiner and a locale that are none of the named constants. -/
theorem C15_open_enumerations_witness :
    HTML { Determiner := lit "some", Locale := lit "tlh_QO" }
      = lit "<meta property=\"og:determiner\" content=\"some\" />\n"
        ++ lit "<meta property=\"og:locale\" content=\"tlh_QO\" />\n" :=
  (C15_open_enumerations { Determiner := lit "some", Locale := lit "tlh_QO" }
    (by decide) (by decide)).1.trans (by rfl)

/-- C16: the escaper is the identity on every string with none of `&` `<` `>` `"` `'` NUL; so
each of the sixteen property names passed to `meta` is its own escaped form, every call of
`meta` made by `HTML` has one of these names as its property, and the property attribute of
every tag of the fragment is literally that name. -/
theorem C16_property_names_literal :
    (∀ s : GoString, (∀ c ∈ s, c ≠ 38 ∧ c ≠ 60 ∧ c ≠ 62 ∧ c ≠ 34 ∧ c ≠ 39 ∧ c ≠ 0) →
        HTMLEscaper s = s)
    ∧ propertyNames =
        [lit "og:title", lit "og:type", lit "og:image", lit "og:image:secure_url",
         lit "og:image:type", lit "og:image:width", lit "og:image:height", lit "og:image:alt",
         lit "og:url", lit "og:audio", lit "og:description", lit "og:determiner",
         lit "og:locale", lit "og:locale:alternate", lit "og:site_name", lit "og:video"]
    ∧ (∀ p ∈ propertyNames, HTMLEscaper p = p)
    ∧ ∀ o : OpenGraph,
        (∀ pc ∈ metaCalls o, pc.1 ∈ propertyNames)
        ∧ HTML o = (metaCalls o).flatMap (fun pc =>
            lit "<meta property=\"" ++ pc.1 ++ lit "\" content=\"" ++ HTMLEscaper pc.2
              ++ lit "\" />" ++ [10]) := by
  refine ⟨HTMLEscaper_of_no_special, rfl, HTMLEscaper_propertyNames, fun o => ⟨?_, ?_⟩⟩
  · exact metaCalls_mem_propertyNames o
  · rw [HTML_eq_renderCalls, renderCalls]
    apply List.flatMap_congr
    intro pc hpc
    rw [tag, HTMLEscaper_propertyNames pc.1 (metaCalls_mem_propertyNames o pc hpc)]

/-- C16 on the name `og:locale:alternate` and on a record that has tags of three kinds. -/
theorem C16_property_names_literal_witness :
    HTMLEscaper (lit "og:locale:alternate") = lit "og:locale:alternate"
    ∧ HTMLEscaper (lit "og:image:secure_url") = lit "og:image:secure_url"
    ∧ HTML { Title := lit "a<b", Images := some [sampleImage], Video := lit "http://v" }
      = lit "<meta property=\"og:title\" content=\"a&lt;b\" />\n" ++ sampleImageTags
        ++ lit "<meta property=\"og:video\" content=\"http://v\" />\n" := by
  have h := C16_property_names_literal
  exact ⟨h.1 (lit "og:locale:alternate") (by decide), h.2.2.1 (lit "og:image:secure_url")
    (by decide), ((h.2.2.2 { Title := lit "a<b", Images := some [sampleImage],
                              Video := lit "http://v" }).2).trans (by rfl)⟩

/-- C17: a scheme-valid `URL` is never empty, so inside the `Images` loop the test
`g.URL != ""` cannot fail once `g.URL.IsValid()` has passed.  For every record with non-nil
`Images`, the number of occurrences of `<meta property="og:image" content="` in `HTML o` is
the number of entries whose `URL` is scheme-valid; the image block is made of the blocks of
the entries, the block of a skipped entry is empty and the block of any other entry starts
with its `og:image` tag, so that every `og:image:secure_url`, `og:image:type`,
`og:image:width`, `og:image:height` or `og:image:alt` tag comes after the `og:image` tag of
its entry. -/
theorem C17_og_image_first (o : OpenGraph) (imgs : List Image) (h : o.Images = some imgs) :
    (∀ u : URL, URL.IsValid u = true → u ≠ [])
    ∧ countOcc (lit "<meta property=\"og:image\" content=\"") (HTML o)
        = imgs.countP (fun g => URL.IsValid g.URL)
    ∧ imageBlock o = imgs.flatMap (fun g => imagesBody [] g)
    ∧ (∀ g : Image, URL.IsValid g.URL = false → imagesBody [] g = [])
    ∧ (∀ g : Image, URL.IsValid g.URL = true →
        imagesBody [] g =
          (lit "<meta property=\"og:image\" content=\"" ++ HTMLEscaper g.URL
            ++ lit "\" />\n")
          ++ ((if g.SecureURL ≠ [] then tag (lit "og:image:secure_url") g.SecureURL else [])
              ++ (if g.Type_ ≠ [] then tag (lit "og:image:type") g.Type_ else [])
              ++ (if g.Width > 0 then tag (lit "og:image:width") (Itoa g.Width) else [])
              ++ (if g.Height > 0 then tag (lit "og:image:height") (Itoa g.Height) else [])
              ++ (if g.Alt ≠ [] then tag (lit "og:image:alt") g.Alt else []))) := by
  have hpat : lit "<meta property=\"og:image\" content=\"" = tagOpen (lit "og:image") := by
    decide
  refine ⟨URL_IsValid_ne_nil, ?_, ?_, ?_, ?_⟩
  · rw [hpat, countOcc_HTML _ (by decide), countP_metaCalls, h, Option.getD_some,
      countP_image_flatMap_imageCalls]
    simp [lit]
  · rw [imageBlock_some o imgs h]
    apply List.flatMap_congr
    intro g _
    exact (imagesBody_nil_eq g).symm
  · intro g hg
    rw [imagesBody_nil_eq, entryBlock_of_not_valid g hg]
  · intro g hg
    rw [imagesBody_nil_eq, entryBlock_of_valid g hg, tag_of_propertyName _ _ (by decide),
      hpat]

/-- C17 on a list of a valid entry, a skipped one and the valid one again. -/
theorem C17_og_image_first_witness :
    countOcc (lit "<meta property=\"og:image\" content=\"")
      (HTML { Type_ := lit "og:image", Image := lit "http://a.example/old.png",
              Images := some [sampleImage, skippedImage, sampleImage] }) = 2
    ∧ imagesBody [] skippedImage = [] :=
  ⟨((C17_og_image_first
      { Type_ := lit "og:image", Image := lit "http://a.example/old.png",
        Images := some [sampleImage, skippedImage, sampleImage] }
      [sampleImage, skippedImage, sampleImage] rfl).2.1).trans (by decide),
   (C17_og_image_first { Images := some [skippedImage] } [skippedImage] rfl).2.2.2.1
      skippedImage (by decide)⟩

/-- C18: for every string `s`, `SecureURL(s).IsValid()` implies `URL(s).IsValid()`; the
converse fails: `http://a` is valid as a `URL` and not as a `SecureURL`. -/
theorem C18_secure_is_stronger :
    (∀ s : GoString, SecureURL.IsValid s = true → URL.IsValid s = true)
    ∧ URL.IsValid (lit "http://a") = true ∧ SecureURL.IsValid (lit "http://a") = false
    ∧ ¬ (∀ s : GoString, URL.IsValid s = true → SecureURL.IsValid s = true) := by
  refine ⟨?_, by decide, by decide, ?_⟩
  · intro s h
    simp only [SecureURL.IsValid] at h
    simp [URL.IsValid, h]
  · intro hall
    exact absurd (hall (lit "http://a") (by decide)) (by decide)

/-- C18 on `https://a`, valid for both predicates. -/
theorem C18_secure_is_stronger_witness :
    SecureURL.IsValid (lit "https://a") = true ∧ URL.IsValid (lit "https://a") = true :=
  ⟨by decide, C18_secure_is_stronger.1 (lit "https://a") (by decide)⟩

end ogp
